import Mathlib

/-!
# MEGG egg sorter: the sort cycle of `src/main.cpp`

A shallow embedding of the firmware's non-blocking sort cycle
(`runContinuousSorting`), of the weight classifier (`classifyEgg`), of the
system control functions (`startSystem`, `stopSystem`, `homeServo`) and of the
command dispatch of `handleSerialCommands`, followed by theorems about them.

Conventions of the embedding.

* Global variables of the sketch are the fields of `State`; the digital output
  pins and the two servos are part of the state as well.  A pin is `true` when it
  is HIGH.  The motor-enable pin is active low: LOW (`false`) enables the motor,
  HIGH (`true`) disables it.
* `unsigned long` is 32 bits wide on the target: the values of `millis()` and
  `micros()` are naturals and every difference of two of them is taken modulo
  `2 ^ 32` (`ulongSub`).
* `int` values are integers; the only arithmetic on them is the decrement of a
  positive step counter, which cannot overflow.
* `float` values are modelled by `CFloat`: a NaN, the two infinities, or a
  rational.  Only comparisons matter for the classifier, and these follow the
  IEEE rules (every comparison with a NaN is false).
* Text written to the serial port is not part of the state.
* The blocking calibration routines are embedded by what they leave behind in the
  state (pin levels, servo angles, the calibration flag); the time they take, the
  scale and offset of the load cell and the EEPROM are not part of the state.
-/

namespace Megg

/-! ## Numbers -/

/-- Values of the C type `float`, up to what comparisons can observe. -/
inductive CFloat where
  | nan
  | negInf
  | finite (q : ℚ)
  | posInf
deriving DecidableEq, Repr

namespace CFloat

/-- The C comparison `a < b`. -/
def lt : CFloat → CFloat → Bool
  | nan, _ => false
  | _, nan => false
  | negInf, negInf => false
  | negInf, _ => true
  | finite _, negInf => false
  | finite a, finite b => decide (a < b)
  | finite _, posInf => true
  | posInf, _ => false

/-- The C comparison `a <= b`. -/
def le : CFloat → CFloat → Bool
  | nan, _ => false
  | _, nan => false
  | negInf, _ => true
  | finite _, negInf => false
  | finite a, finite b => decide (a ≤ b)
  | finite _, posInf => true
  | posInf, posInf => true
  | posInf, _ => false

/-- The C comparison `a > b`. -/
def gt (a b : CFloat) : Bool := lt b a

/-- The C comparison `a >= b`. -/
def ge (a b : CFloat) : Bool := le b a

/-- The C sum `a + b`; on rationals it is exact, which is the `float` sum whenever
the exact sum is representable (all sums the sketch computes on the test weight are
small integers). -/
def add : CFloat → CFloat → CFloat
  | nan, _ => nan
  | _, nan => nan
  | negInf, posInf => nan
  | posInf, negInf => nan
  | negInf, _ => negInf
  | _, negInf => negInf
  | posInf, _ => posInf
  | _, posInf => posInf
  | finite a, finite b => finite (a + b)

end CFloat

/-- Width of `unsigned long` on the target, as a modulus. -/
def ULONG_MOD : Nat := 2 ^ 32

/-- The C difference `a - b` of two `unsigned long` values. -/
def ulongSub (a b : Nat) : Nat := (a % ULONG_MOD + (ULONG_MOD - b % ULONG_MOD)) % ULONG_MOD

/-! ## Constants of the sketch -/

def LOADER_HOME_POS : Int := 160
def LOADER_LOAD_POS : Int := 100
def MG996R_HOME_POS : Int := 90

/-- Diverter angle per bin index: 0 = BAD, 1 = SMALL, 2 = MEDIUM, 3 = LARGE. -/
def MG996R_POSITIONS : List Int := [15, 70, 125, 170]

def NEMA23_STEPS : Int := 1600
def STEP_PULSE_DELAY_US : Nat := 800
def TIME_SERVO_ACTUATE : Nat := 1500
def TIME_SETTLE_VIBRATION : Nat := 500
def TIME_SORT_ACTUATE : Nat := 2000
def QUALITY_WAIT_TIMEOUT_ON_STOP : Nat := 3000

/-- Bin indices returned by `classifyEgg`. -/
def BAD : Int := 0
def SMALL : Int := 1
def MEDIUM : Int := 2
def LARGE : Int := 3

/-! ## Data model -/

/-- The six range globals `smallMin` .. `largeMax`. -/
structure RangeConfig where
  smallMin : CFloat
  smallMax : CFloat
  mediumMin : CFloat
  mediumMax : CFloat
  largeMin : CFloat
  largeMax : CFloat
deriving DecidableEq, Repr

/-- The initial values of the range globals. -/
def defaultRanges : RangeConfig where
  smallMin := CFloat.finite 35
  smallMax := CFloat.finite 42
  mediumMin := CFloat.finite 43
  mediumMax := CFloat.finite 50
  largeMin := CFloat.finite 51
  largeMax := CFloat.finite 58

/-- The enum `SortingStep`. -/
inductive SortingStep where
  | STEP_IDLE
  | STEP_LOAD_EGG_DOWN
  | STEP_LOAD_EGG_UP
  | STEP_MOVE_TO_SCALE_INIT
  | STEP_STEPPER_MOVING
  | STEP_WEIGH_WAIT
  | STEP_WEIGH_READ
  | STEP_WAIT_FOR_QUALITY
  | STEP_SORT_ACTUATE
  | STEP_EGG_DROP_WAIT
deriving DecidableEq, Repr

/-- A servo handle: the last angle written and the number of `write` calls. -/
structure Servo where
  angle : Int
  writes : Nat
deriving DecidableEq, Repr

/-- The call `servo.write(a)`. -/
def Servo.write (a : Int) (sv : Servo) : Servo :=
  { angle := a, writes := sv.writes + 1 }

/-- The globals of the sketch together with the outputs it drives. -/
structure State where
  systemActive : Bool
  stopRequested : Bool
  plainMode : Bool
  hx711_calibrated : Bool
  ranges : RangeConfig
  lastStepTime : Nat
  stepsRemainingInMove : Int
  currentEggWeight : CFloat
  eggQualityIsGood : Bool
  weightClassificationIndex : Int
  currentSortingStep : SortingStep
  stepStartTime : Nat
  /-- The function-local `static float testWeight` of the weigh step. -/
  testWeight : CFloat
  loader : Servo
  mg996r : Servo
  /-- Level of `NEMA23_STEP_PIN`. -/
  pinStep : Bool
  /-- Number of `digitalWrite` calls on `NEMA23_STEP_PIN`. -/
  stepPinWrites : Nat
  /-- Level of `NEMA23_DIR_PIN`. -/
  pinDir : Bool
  /-- Level of `NEMA23_ENABLE_PIN` (HIGH disables the motor). -/
  pinEnable : Bool
deriving DecidableEq, Repr

/-- The state `setup()` leaves behind; `calibrated` is the value it computes for
`hx711_calibrated` from the stored scale. -/
def initialState (calibrated : Bool) : State where
  systemActive := false
  stopRequested := false
  plainMode := false
  hx711_calibrated := calibrated
  ranges := defaultRanges
  lastStepTime := 0
  stepsRemainingInMove := 0
  currentEggWeight := CFloat.finite 0
  eggQualityIsGood := false
  weightClassificationIndex := 0
  currentSortingStep := SortingStep.STEP_IDLE
  stepStartTime := 0
  testWeight := CFloat.finite 47
  loader := { angle := LOADER_HOME_POS, writes := 1 }
  mg996r := { angle := MG996R_HOME_POS, writes := 1 }
  pinStep := false
  stepPinWrites := 0
  pinDir := false
  pinEnable := true

/-- What one call of `runContinuousSorting` reads from outside: the two clocks and
the load cell. -/
structure TickInput where
  /-- Value of `millis()`. -/
  millis : Nat
  /-- Value of `micros()`. -/
  micros : Nat
  /-- Value of `hx711.is_ready()`. -/
  hxReady : Bool
  /-- Value `hx711.get_units(10)` would return. -/
  hxUnits : CFloat
deriving DecidableEq, Repr

/-! ## Weight classifier -/

/-- The function `classifyEgg`, with the globals it reads as arguments. -/
def classifyEgg (currentEggWeight : CFloat) (r : RangeConfig) : Int :=
  if currentEggWeight.lt (CFloat.finite 0) then 0
  else if currentEggWeight.ge r.largeMin then 3
  else if currentEggWeight.ge r.mediumMin && currentEggWeight.le r.mediumMax then 2
  else if currentEggWeight.ge r.smallMin then
    if currentEggWeight.le r.smallMax then 1 else 0
  else if currentEggWeight.gt (CFloat.finite 0) && currentEggWeight.lt r.smallMin then 1
  else 0

/-! ## System control -/

/-- The function `homeServo`. -/
def homeServo (s : State) : State :=
  { s with loader := s.loader.write LOADER_HOME_POS, mg996r := s.mg996r.write MG996R_HOME_POS }

/-- The function `startSystem`; `now` is the value of `millis()`.  The build flag
`ALLOW_UNCALIBRATED_START` is `true`, so an uncalibrated load cell only produces a
warning. -/
def startSystem (now : Nat) (s : State) : State :=
  if s.systemActive then s
  else
    { s with
      systemActive := true
      pinEnable := false
      currentSortingStep := SortingStep.STEP_LOAD_EGG_DOWN
      stepStartTime := now }

/-- The function `stopSystem`. -/
def stopSystem (s : State) : State :=
  if !s.systemActive then s
  else if s.stepsRemainingInMove > 0 then { s with stopRequested := true }
  else
    let s1 := { s with pinEnable := true, stepsRemainingInMove := 0 }
    let s2 := homeServo s1
    { s2 with systemActive := false, currentSortingStep := SortingStep.STEP_IDLE }

/-! ## The sort cycle -/

/-- The array read `MG996R_POSITIONS[i]`; `none` outside the array. -/
def positionAt (i : Int) : Option Int :=
  if 0 ≤ i then MG996R_POSITIONS.get? i.toNat else none

/-- Body of `case STEP_STEPPER_MOVING`. -/
def stepperMoving (currentTime currentMicroseconds : Nat) (s : State) : State :=
  if s.stepsRemainingInMove > 0 then
    if ulongSub currentMicroseconds s.lastStepTime ≥ STEP_PULSE_DELAY_US then
      if s.pinStep = false then
        { s with
          pinStep := true
          stepPinWrites := s.stepPinWrites + 1
          lastStepTime := currentMicroseconds }
      else
        { s with
          pinStep := false
          stepPinWrites := s.stepPinWrites + 1
          lastStepTime := currentMicroseconds
          stepsRemainingInMove := s.stepsRemainingInMove - 1 }
    else s
  else
    { s with
      pinEnable := true
      stepStartTime := currentTime
      currentSortingStep := SortingStep.STEP_WEIGH_WAIT }

/-- Body of `case STEP_WEIGH_READ`. -/
def weighRead (inp : TickInput) (s : State) : State :=
  let s1 : State :=
    if inp.hxReady && s.hx711_calibrated then
      { s with currentEggWeight := inp.hxUnits }
    else
      let t := s.testWeight.add (CFloat.finite 25)
      let t := if t.gt (CFloat.finite 350) then CFloat.finite 47 else t
      { s with testWeight := t, currentEggWeight := t }
  let s2 := { s1 with weightClassificationIndex := classifyEgg s1.currentEggWeight s1.ranges }
  if s2.plainMode then
    { s2 with eggQualityIsGood := true, currentSortingStep := SortingStep.STEP_SORT_ACTUATE }
  else
    { s2 with
      eggQualityIsGood := false
      stepStartTime := inp.millis
      currentSortingStep := SortingStep.STEP_WAIT_FOR_QUALITY }

/-- Body of `case STEP_SORT_ACTUATE`; `none` when the array read is out of bounds. -/
def sortActuate (currentTime : Nat) (s : State) : Option State :=
  let finalBinIndex : Int :=
    if !s.eggQualityIsGood || s.weightClassificationIndex == 0 then 0
    else s.weightClassificationIndex
  match positionAt finalBinIndex with
  | none => none
  | some targetPos =>
    some { s with
      mg996r := s.mg996r.write targetPos
      stepStartTime := currentTime
      currentSortingStep := SortingStep.STEP_EGG_DROP_WAIT }

/-- The function `runContinuousSorting`: one tick of the sort cycle.  The case
`STEP_MOVE_TO_SCALE_INIT` has no `break` and continues into
`STEP_STEPPER_MOVING`. -/
def runContinuousSorting (inp : TickInput) (s : State) : Option State :=
  let currentTime := inp.millis
  let currentMicroseconds := inp.micros
  match s.currentSortingStep with
  | SortingStep.STEP_LOAD_EGG_DOWN =>
    some { s with
      loader := s.loader.write LOADER_LOAD_POS
      stepStartTime := currentTime
      currentSortingStep := SortingStep.STEP_LOAD_EGG_UP }
  | SortingStep.STEP_LOAD_EGG_UP =>
    if ulongSub currentTime s.stepStartTime ≥ TIME_SERVO_ACTUATE then
      some { s with
        loader := s.loader.write LOADER_HOME_POS
        currentSortingStep := SortingStep.STEP_MOVE_TO_SCALE_INIT }
    else some s
  | SortingStep.STEP_MOVE_TO_SCALE_INIT =>
    some (stepperMoving currentTime currentMicroseconds
      { s with
        pinDir := true
        pinEnable := false
        stepsRemainingInMove := NEMA23_STEPS
        lastStepTime := currentMicroseconds
        currentSortingStep := SortingStep.STEP_STEPPER_MOVING })
  | SortingStep.STEP_STEPPER_MOVING =>
    some (stepperMoving currentTime currentMicroseconds s)
  | SortingStep.STEP_WEIGH_WAIT =>
    if ulongSub currentTime s.stepStartTime ≥ TIME_SETTLE_VIBRATION then
      some { s with currentSortingStep := SortingStep.STEP_WEIGH_READ }
    else some s
  | SortingStep.STEP_WEIGH_READ => some (weighRead inp s)
  | SortingStep.STEP_WAIT_FOR_QUALITY =>
    if s.stopRequested then
      if ulongSub currentTime s.stepStartTime ≥ QUALITY_WAIT_TIMEOUT_ON_STOP then
        some { s with
          eggQualityIsGood := false
          currentSortingStep := SortingStep.STEP_SORT_ACTUATE }
      else some s
    else some s
  | SortingStep.STEP_SORT_ACTUATE => sortActuate currentTime s
  | SortingStep.STEP_EGG_DROP_WAIT =>
    if ulongSub currentTime s.stepStartTime ≥ TIME_SORT_ACTUATE then
      if s.stopRequested then
        some (stopSystem { s with stopRequested := false })
      else
        some { s with currentSortingStep := SortingStep.STEP_LOAD_EGG_DOWN }
    else some s
  | SortingStep.STEP_IDLE => some s

/-! ## Calibration routines -/

/-- The call `servo.read()`: the last angle written. -/
def Servo.read (sv : Servo) : Int := sv.angle

def NEMA23_STEP_PIN : Nat := 3
def NEMA23_DIR_PIN : Nat := 4
def NEMA23_ENABLE_PIN : Nat := 2

/-- The call `digitalWrite(pin, level)` on a digital pin; of these only the three
stepper pins are part of the state. -/
def digitalWrite (pin : Nat) (level : Bool) (s : State) : State :=
  if pin = NEMA23_ENABLE_PIN then { s with pinEnable := level }
  else if pin = NEMA23_STEP_PIN then
    { s with pinStep := level, stepPinWrites := s.stepPinWrites + 1 }
  else if pin = NEMA23_DIR_PIN then { s with pinDir := level }
  else s

/-- The function `calibrateUno`: every digital pin from 2 to 13 is driven HIGH and
then LOW. -/
def calibrateUno (s : State) : State :=
  (List.range' 2 12).foldl (fun st i => digitalWrite i false (digitalWrite i true st)) s

/-- The function `calibrateHX711`; `ready` is the value of `hx711.is_ready()`.  When
the load cell is not ready the routine returns at once, otherwise it ends with
`hx711_calibrated = true`. -/
def calibrateHX711 (ready : Bool) (s : State) : State :=
  if !ready then s else { s with hx711_calibrated := true }

/-- The loop of `calibrateNema23` that makes `n` blocking steps: the step pin is
driven HIGH and then LOW `n` times. -/
def blockingSteps : Nat → State → State
  | 0, s => s
  | n + 1, s =>
    blockingSteps n (digitalWrite NEMA23_STEP_PIN false (digitalWrite NEMA23_STEP_PIN true s))

/-- The function `calibrateNema23`: motor enabled, 1600 steps forward, 1600 steps
backward, motor disabled. -/
def calibrateNema23 (s : State) : State :=
  let s1 := digitalWrite NEMA23_ENABLE_PIN false s
  let s2 := digitalWrite NEMA23_DIR_PIN true s1
  let s3 := blockingSteps 1600 s2
  let s4 := digitalWrite NEMA23_DIR_PIN false s3
  let s5 := blockingSteps 1600 s4
  digitalWrite NEMA23_ENABLE_PIN true s5

/-- The loop `for (int pos = start; pos >= 100; pos -= 1) loader.write(pos);`. -/
def sweepDown (pos : Int) (sv : Servo) : Servo :=
  if 100 ≤ pos then sweepDown (pos - 1) (sv.write pos) else sv
termination_by (pos - 99).toNat
decreasing_by omega

/-- The loop `for (int pos = start; pos <= 160; pos += 1) loader.write(pos);`. -/
def sweepUp (pos : Int) (sv : Servo) : Servo :=
  if pos ≤ 160 then sweepUp (pos + 1) (sv.write pos) else sv
termination_by (161 - pos).toNat
decreasing_by omega

/-- The function `calibrateLoaderServo`: four sweeps of the loader, each starting at
`loader.read()`. -/
def calibrateLoaderServo (s : State) : State :=
  let l1 := sweepDown s.loader.read s.loader
  let l2 := sweepUp l1.read l1
  let l3 := sweepDown l2.read l2
  let l4 := sweepUp l3.read l3
  { s with loader := l4 }

/-- The function `calibrateMG996R`: the diverter visits the four bin angles and
returns to its home angle. -/
def calibrateMG996R (s : State) : State :=
  let mg := MG996R_POSITIONS.foldl (fun sv a => sv.write a) s.mg996r
  { s with mg996r := mg.write MG996R_HOME_POS }

/-! ## Commands -/

/-- The argument of a `QUALITY` line after the blanks: it starts with `GOOD`, starts
with `BAD`, or neither. -/
inductive QualityArg where
  | GOOD
  | BAD
  | other
deriving DecidableEq, Repr

/-- A command line as `handleSerialCommands` dispatches it.  For `START`,
`START_PLAIN` and `SET_RANGES` the argument is `some r` when `sscanf` converted all
six numbers (to the fields of `r`) and `none` when it converted fewer.
`CALIBRATE_HX711` carries the value `hx711.is_ready()` has when the routine runs;
`CALIBRATE_LOADER` stands for the two lines `CALIBRATE_SG90` and `CALIBRATE_LOADER`;
`unknown` stands for the `CMD:` marker and every other line. -/
inductive Command where
  | CALIBRATE_HX711 (ready : Bool)
  | START (args : Option RangeConfig)
  | START_PLAIN (args : Option RangeConfig)
  | STOP
  | HOME
  | STATUS
  | QUALITY (arg : QualityArg)
  | SET_RANGES (args : Option RangeConfig)
  | CALIBRATE_UNO
  | CALIBRATE_NEMA23
  | CALIBRATE_LOADER
  | CALIBRATE_MG996R
  | RUN
  | unknown
deriving DecidableEq, Repr

/-- The assignment of the six range globals after a successful `sscanf`. -/
def applyRanges (args : Option RangeConfig) (s : State) : State :=
  match args with
  | some r => { s with ranges := r }
  | none => s

/-- One dispatched command line of `handleSerialCommands`; `now` is the value of
`millis()`. -/
def handleCommand (now : Nat) (c : Command) (s : State) : State :=
  match c with
  | Command.CALIBRATE_HX711 ready => calibrateHX711 ready s
  | Command.START args => startSystem now { applyRanges args s with plainMode := false }
  | Command.START_PLAIN args => startSystem now { applyRanges args s with plainMode := true }
  | Command.STOP => if s.systemActive then { s with stopRequested := true } else s
  | Command.HOME => homeServo s
  | Command.STATUS => s
  | Command.QUALITY arg =>
    if s.currentSortingStep ≠ SortingStep.STEP_WAIT_FOR_QUALITY then s
    else
      match arg with
      | QualityArg.GOOD =>
        { s with eggQualityIsGood := true, currentSortingStep := SortingStep.STEP_SORT_ACTUATE }
      | QualityArg.BAD =>
        { s with eggQualityIsGood := false, currentSortingStep := SortingStep.STEP_SORT_ACTUATE }
      | QualityArg.other => s
  | Command.SET_RANGES args => applyRanges args s
  | Command.CALIBRATE_UNO => calibrateUno s
  | Command.CALIBRATE_NEMA23 => calibrateNema23 s
  | Command.CALIBRATE_LOADER => calibrateLoaderServo s
  | Command.CALIBRATE_MG996R => calibrateMG996R s
  | Command.RUN => startSystem now s
  | Command.unknown => s

/-- One iteration of `loop()` after the serial input has been handled: the sort
cycle runs only while the system is active. -/
def loopTick (inp : TickInput) (s : State) : Option State :=
  if s.systemActive then runContinuousSorting inp s else some s

/-- Successive calls of `runContinuousSorting`, one per input. -/
def runTicks : List TickInput → State → Option State
  | [], s => some s
  | inp :: rest, s => (runContinuousSorting inp s).bind (runTicks rest)

/-- One step of the system as `loop()` makes it: a command line taken from the
serial port at `millis()` value `now`, or a tick. -/
inductive Event where
  | command (now : Nat) (c : Command)
  | tick (inp : TickInput)
deriving DecidableEq, Repr

/-- The effect of one step of the system. -/
def systemStep : Event → State → Option State
  | Event.command now c, s => some (handleCommand now c s)
  | Event.tick inp, s => loopTick inp s

/-- The states the system reaches from the state after `setup()` by commands and
ticks. -/
inductive Reachable : State → Prop where
  | init (calibrated : Bool) : Reachable (initialState calibrated)
  | step (e : Event) (s t : State) : Reachable s → systemStep e s = some t → Reachable t

/-- What the call `sscanf(args, "%f %f %f %f %f %f", &s_min, ..., &l_max)` leaves
behind: its return value and the six locals, of which those not converted hold
arbitrary values. -/
structure ScanResult where
  count : Int
  s_min : CFloat
  s_max : CFloat
  m_min : CFloat
  m_max : CFloat
  l_min : CFloat
  l_max : CFloat
deriving DecidableEq, Repr

/-- The six locals as a range configuration. -/
def ScanResult.values (r : ScanResult) : RangeConfig :=
  { smallMin := r.s_min, smallMax := r.s_max, mediumMin := r.m_min, mediumMax := r.m_max,
    largeMin := r.l_min, largeMax := r.l_max }

/-- The test `sscanf(...) == 6` that guards the assignment of the range globals. -/
def ScanResult.args (r : ScanResult) : Option RangeConfig :=
  if r.count = 6 then some r.values else none

/-- The update of the `static float testWeight` in the degraded branch of the weigh
step: `testWeight += 25.0f; if (testWeight > 350.0f) testWeight = 47.0f;`. -/
def nextTestWeight (w : CFloat) : CFloat :=
  let t := w.add (CFloat.finite 25)
  if t.gt (CFloat.finite 350) then CFloat.finite 47 else t

/-- Successive steps of the system, one per event. -/
def runEvents : List Event → State → Option State
  | [], s => some s
  | e :: rest, s => (systemStep e s).bind (runEvents rest)

/-! ## Specification-side definitions -/

/-- The ordered rules of the specified classifier for weight `w`: each entry is the
condition of a rule and the bin the rule gives. -/
def classifyRules (w : CFloat) (cfg : RangeConfig) : List (Bool × Int) :=
  [ (w.lt (CFloat.finite 0), BAD),
    (w.ge cfg.largeMin, LARGE),
    (cfg.mediumMin.le w && w.le cfg.mediumMax, MEDIUM),
    (w.ge cfg.smallMin, if w.le cfg.smallMax then SMALL else BAD),
    ((CFloat.finite 0).lt w && w.lt cfg.smallMin, SMALL) ]

/-- First match wins: the bin of the first rule whose condition holds, BAD when no
rule applies. -/
def firstMatch : List (Bool × Int) → Int
  | [] => BAD
  | (c, r) :: rest => if c then r else firstMatch rest

/-- Every tick of the list is due: its time is at least 800 microseconds
(`unsigned long` difference) after the tick before it, the first one after `last`. -/
def EveryTickToggles (last : Nat) : List TickInput → Prop
  | [] => True
  | inp :: rest => 800 ≤ ulongSub inp.micros last ∧ EveryTickToggles inp.micros rest

/-- The times of those ticks of a run from `s` that changed the level of the step
line, in order. -/
def toggleTimes : List TickInput → State → List Nat
  | [], _ => []
  | inp :: rest, s =>
    match runContinuousSorting inp s with
    | none => []
    | some t => (if t.pinStep = s.pinStep then [] else [inp.micros]) ++ toggleTimes rest t

/-- The range configuration is ordered:
`0 < smallMin <= smallMax < mediumMin <= mediumMax < largeMin`. -/
def RangeConfig.Ordered (cfg : RangeConfig) : Prop :=
  (CFloat.finite 0).lt cfg.smallMin = true ∧ cfg.smallMin.le cfg.smallMax = true ∧
  cfg.smallMax.lt cfg.mediumMin = true ∧ cfg.mediumMin.le cfg.mediumMax = true ∧
  cfg.mediumMax.lt cfg.largeMin = true

/-- The successors of a phase in the cycle graph, as far as ticks go (the step from
IDLE to LOAD_DOWN is made by a start command). -/
def cycleSuccessors : SortingStep → List SortingStep
  | SortingStep.STEP_IDLE => []
  | SortingStep.STEP_LOAD_EGG_DOWN => [SortingStep.STEP_LOAD_EGG_UP]
  | SortingStep.STEP_LOAD_EGG_UP => [SortingStep.STEP_MOVE_TO_SCALE_INIT]
  | SortingStep.STEP_MOVE_TO_SCALE_INIT => [SortingStep.STEP_STEPPER_MOVING]
  | SortingStep.STEP_STEPPER_MOVING => [SortingStep.STEP_WEIGH_WAIT]
  | SortingStep.STEP_WEIGH_WAIT => [SortingStep.STEP_WEIGH_READ]
  | SortingStep.STEP_WEIGH_READ =>
    [SortingStep.STEP_WAIT_FOR_QUALITY, SortingStep.STEP_SORT_ACTUATE]
  | SortingStep.STEP_WAIT_FOR_QUALITY => [SortingStep.STEP_SORT_ACTUATE]
  | SortingStep.STEP_SORT_ACTUATE => [SortingStep.STEP_EGG_DROP_WAIT]
  | SortingStep.STEP_EGG_DROP_WAIT =>
    [SortingStep.STEP_LOAD_EGG_DOWN, SortingStep.STEP_IDLE]

/-- The weight is one of the synthetic test weights `47 + 25 k` with `k` from 0 to
12. -/
def IsTestWeight (w : CFloat) : Prop :=
  ∃ k : Nat, k ≤ 12 ∧ w = CFloat.finite (47 + 25 * (k : ℚ))

/-- The control invariant of the reachable states: the step counter lies between 0
and 1600 and is positive only in phase STEPPER_MOVING, the system is active exactly
outside phase IDLE, and a latched stop request implies an active system. -/
def ControlInv (s : State) : Prop :=
  0 ≤ s.stepsRemainingInMove ∧ s.stepsRemainingInMove ≤ 1600 ∧
  (0 < s.stepsRemainingInMove →
    s.currentSortingStep = SortingStep.STEP_STEPPER_MOVING) ∧
  (s.systemActive = true ↔ s.currentSortingStep ≠ SortingStep.STEP_IDLE) ∧
  (s.stopRequested = true → s.systemActive = true)

/-! ## Example states -/

/-- A running system in the middle of a move: five steps left, step line high, last
toggle at 1000 microseconds. -/
def exampleMoving : State :=
  { initialState true with
    systemActive := true
    pinEnable := false
    pinDir := true
    pinStep := true
    stepsRemainingInMove := 5
    lastStepTime := 1000
    currentSortingStep := SortingStep.STEP_STEPPER_MOVING }

/-- A tick at 1 ms / 1800 microseconds with an idle load cell. -/
def exampleTick : TickInput :=
  { millis := 1, micros := 1800, hxReady := false, hxUnits := CFloat.finite 0 }

/-- A cycle waiting for the quality verdict since 10 ms, weight 47 g classified
MEDIUM, no stop pending. -/
def exampleWaiting : State :=
  { initialState true with
    systemActive := true
    pinEnable := true
    currentEggWeight := CFloat.finite 47
    weightClassificationIndex := classifyEgg (CFloat.finite 47) defaultRanges
    stepStartTime := 10
    currentSortingStep := SortingStep.STEP_WAIT_FOR_QUALITY }

/-- The state `exampleWaiting` after the verdict GOOD has been accepted. -/
def exampleActuate : State :=
  handleCommand 20 (Command.QUALITY QualityArg.GOOD) exampleWaiting

/-- A cycle holding the diverter since 100 ms with a stop pending. -/
def exampleDropStop : State :=
  { initialState true with
    systemActive := true
    stopRequested := true
    loader := { angle := LOADER_HOME_POS, writes := 3 }
    mg996r := { angle := 125, writes := 2 }
    stepStartTime := 100
    currentSortingStep := SortingStep.STEP_EGG_DROP_WAIT }

/-- A running system about to start a move, step line low. -/
def exampleInit : State :=
  { initialState true with
    systemActive := true
    pinEnable := false
    loader := { angle := LOADER_HOME_POS, writes := 3 }
    currentSortingStep := SortingStep.STEP_MOVE_TO_SCALE_INIT }

/-- A tick at `t` microseconds with an idle load cell. -/
def tickAt (t : Nat) : TickInput :=
  { millis := t / 1000, micros := t, hxReady := false, hxUnits := CFloat.finite 0 }

/-- The `n` ticks at `start + 800`, `start + 1600`, ... microseconds. -/
def pulseTrain (start : Nat) : Nat → List TickInput
  | 0 => []
  | n + 1 => tickAt (start + 800) :: pulseTrain (start + 800) n

/-- Five ticks after a MOVE_INIT tick at 0: the ones at 800, 1700 and 5000
microseconds are due. -/
def exampleTimes : List TickInput :=
  [tickAt 100, tickAt 800, tickAt 900, tickAt 1700, tickAt 5000]

/-- A running cycle whose loader went down at 100 ms. -/
def exampleLoadUp : State :=
  { initialState true with
    systemActive := true
    pinEnable := false
    loader := { angle := LOADER_LOAD_POS, writes := 2 }
    stepStartTime := 100
    currentSortingStep := SortingStep.STEP_LOAD_EGG_UP }

/-- A running cycle about to weigh, in normal (quality-gated) mode. -/
def exampleWeigh : State :=
  { initialState true with
    systemActive := true
    stepStartTime := 100
    currentSortingStep := SortingStep.STEP_WEIGH_READ }

/-- A tick at 700 ms whose load cell is ready and reads 47 g. -/
def exampleWeighTick : TickInput :=
  { millis := 700, micros := 700000, hxReady := true, hxUnits := CFloat.finite 47 }

/-- The state `exampleMoving` of a cycle that was started in plain mode. -/
def examplePlain : State :=
  { exampleMoving with plainMode := true }

/-- A scan that converted three of the six numbers. -/
def exampleScan : ScanResult :=
  { count := 3, s_min := CFloat.finite 30, s_max := CFloat.finite 40,
    m_min := CFloat.finite 41, m_max := CFloat.finite 0, l_min := CFloat.finite 0,
    l_max := CFloat.finite 0 }

/-- A start in normal mode at 0 ms, the LOAD_DOWN tick, the LOAD_UP tick 1500 ms
later, the MOVE_INIT tick and a STOP command. -/
def exampleEvents : List Event :=
  [Event.command 0 (Command.START none), Event.tick (tickAt 0), Event.tick (tickAt 1500000),
   Event.tick (tickAt 1501000), Event.command 1502 Command.STOP]

/-- The state after `exampleEvents`: moving with 1600 steps left and a stop latched. -/
def exampleStarted : State :=
  { initialState true with
    systemActive := true
    stopRequested := true
    pinEnable := false
    pinDir := true
    stepsRemainingInMove := 1600
    lastStepTime := 1501000
    loader := { angle := LOADER_HOME_POS, writes := 3 }
    stepStartTime := 0
    currentSortingStep := SortingStep.STEP_STEPPER_MOVING }

/-- A configuration that is not ordered: the medium range 40..45 lies below the small
range 50..60. -/
def exampleUnordered : RangeConfig where
  smallMin := CFloat.finite 50
  smallMax := CFloat.finite 60
  mediumMin := CFloat.finite 40
  mediumMax := CFloat.finite 45
  largeMin := CFloat.finite 100
  largeMax := CFloat.finite 110

/-- The state `exampleMoving` with its last toggle 100 microseconds before the wrap
of `micros()`. -/
def exampleMovingAtWrap : State :=
  { exampleMoving with lastStepTime := 2 ^ 32 - 100 }

/-- The state `exampleLoadUp` with its phase start 100 ms before the wrap of
`millis()`. -/
def exampleLoadUpAtWrap : State :=
  { exampleLoadUp with stepStartTime := 2 ^ 32 - 100 }

/-! ## Theorems -/

/-- What `calibrateUno` leaves behind: the three stepper pins LOW, the step pin
written twice. -/
theorem calibrateUno_eq (s : State) :
    calibrateUno s =
      { s with
        pinEnable := false
        pinStep := false
        stepPinWrites := s.stepPinWrites + 2
        pinDir := false } := by
  simp [calibrateUno, List.range', digitalWrite, NEMA23_STEP_PIN, NEMA23_ENABLE_PIN,
    NEMA23_DIR_PIN]

/-- What `n` blocking steps leave behind. -/
theorem blockingSteps_eq (n : Nat) :
    ∀ s : State, blockingSteps n s =
      { s with
        pinStep := if n = 0 then s.pinStep else false
        stepPinWrites := s.stepPinWrites + 2 * n } := by
  induction n with
  | zero => intro s; rfl
  | succ n ih =>
    intro s
    rw [blockingSteps, ih]
    simp only [digitalWrite, NEMA23_STEP_PIN, NEMA23_ENABLE_PIN, NEMA23_DIR_PIN]
    cases n <;> simp
    omega

/-- What `calibrateNema23` leaves behind: the enable pin HIGH (motor disabled), the
direction and step pins LOW, the step pin written 6400 times. -/
theorem calibrateNema23_eq (s : State) :
    calibrateNema23 s =
      { s with
        pinEnable := true
        pinDir := false
        pinStep := false
        stepPinWrites := s.stepPinWrites + 6400 } := by
  simp only [calibrateNema23, blockingSteps_eq]
  simp [digitalWrite, NEMA23_STEP_PIN, NEMA23_ENABLE_PIN, NEMA23_DIR_PIN]

/-- The difference of a time with itself is 0. -/
theorem ulongSub_self (a : Nat) : ulongSub a a = 0 := by
  have h : a % ULONG_MOD < ULONG_MOD := Nat.mod_lt _ (by decide)
  unfold ulongSub
  rw [Nat.add_sub_cancel' h.le]
  exact Nat.mod_self _

/-- An `unsigned long` difference fits in 32 bits. -/
theorem ulongSub_lt (a b : Nat) : ulongSub a b < ULONG_MOD :=
  Nat.mod_lt _ (by decide)

/-- Without a wrap of the counter the `unsigned long` difference is the true one. -/
theorem ulongSub_of_le {a b : Nat} (hba : b ≤ a) (ha : a < ULONG_MOD) :
    ulongSub a b = a - b := by
  unfold ulongSub
  rw [Nat.mod_eq_of_lt ha, Nat.mod_eq_of_lt (lt_of_le_of_lt hba ha)]
  have h : a + (ULONG_MOD - b) = (a - b) + ULONG_MOD := by omega
  rw [h, Nat.add_mod_right]
  exact Nat.mod_eq_of_lt (by omega)

/-- The `unsigned long` difference is the true difference modulo `2 ^ 32`. -/
theorem ulongSub_eq_mod {a b : Nat} (hba : b ≤ a) : ulongSub a b = (a - b) % ULONG_MOD := by
  have hM : 0 < ULONG_MOD := by decide
  unfold ulongSub
  have hb : b % ULONG_MOD < ULONG_MOD := Nat.mod_lt _ hM
  have e : (a - b) + b = a := Nat.sub_add_cancel hba
  have key : (a % ULONG_MOD + (ULONG_MOD - b % ULONG_MOD)) % ULONG_MOD
      = ((a - b) % ULONG_MOD) % ULONG_MOD := by
    apply Nat.ModEq.add_right_cancel' (b % ULONG_MOD)
    show (a % ULONG_MOD + (ULONG_MOD - b % ULONG_MOD) + b % ULONG_MOD) % ULONG_MOD
      = ((a - b) % ULONG_MOD + b % ULONG_MOD) % ULONG_MOD
    have e2 : a % ULONG_MOD + (ULONG_MOD - b % ULONG_MOD) + b % ULONG_MOD
        = a % ULONG_MOD + ULONG_MOD := by omega
    rw [e2, Nat.add_mod_right, Nat.mod_mod, ← Nat.add_mod, e]
  rw [key, Nat.mod_mod]

/-- The `unsigned long` difference never exceeds the true difference. -/
theorem ulongSub_le_sub {a b : Nat} (hba : b ≤ a) : ulongSub a b ≤ a - b := by
  rw [ulongSub_eq_mod hba]
  exact Nat.mod_le _ _

/-- The tick of phase MOVE_INIT: it arms the move and, falling through into the
moving case with a zero time difference, makes no toggle. -/
theorem moveInit_tick (s : State) (inp : TickInput)
    (hphase : s.currentSortingStep = SortingStep.STEP_MOVE_TO_SCALE_INIT) :
    runContinuousSorting inp s = some
      { s with
        pinDir := true
        pinEnable := false
        stepsRemainingInMove := 1600
        lastStepTime := inp.micros
        currentSortingStep := SortingStep.STEP_STEPPER_MOVING } := by
  obtain ⟨sa, sr, pm, hc, rg, lt, st, w, q, wi, ph, sst, tw, ld, mg, ps, pw, pd, pe⟩ := s
  simp only at hphase
  subst hphase
  simp [runContinuousSorting, stepperMoving, NEMA23_STEPS, ulongSub_self, STEP_PULSE_DELAY_US]

/-- The due tick of phase STEPPER_MOVING with steps outstanding. -/
theorem moving_tick_due (s : State) (inp : TickInput)
    (hphase : s.currentSortingStep = SortingStep.STEP_STEPPER_MOVING)
    (hsteps : 0 < s.stepsRemainingInMove)
    (hdue : 800 ≤ ulongSub inp.micros s.lastStepTime) :
    runContinuousSorting inp s = some
      { s with
        pinStep := !s.pinStep
        stepPinWrites := s.stepPinWrites + 1
        lastStepTime := inp.micros
        stepsRemainingInMove :=
          if s.pinStep then s.stepsRemainingInMove - 1 else s.stepsRemainingInMove } := by
  obtain ⟨sa, sr, pm, hc, rg, lt, st, w, q, wi, ph, sst, tw, ld, mg, ps, pw, pd, pe⟩ := s
  simp only at hphase hsteps hdue
  subst hphase
  simp only [runContinuousSorting, stepperMoving, gt_iff_lt, hsteps, if_true,
    STEP_PULSE_DELAY_US, ge_iff_le, hdue]
  cases ps <;> simp

/-- A run of due ticks in phase STEPPER_MOVING that does not exhaust the step
counter before its last tick: every tick toggles, and every second toggle takes a
step. -/
theorem runTicks_toggling (inps : List TickInput) :
    ∀ s : State, s.currentSortingStep = SortingStep.STEP_STEPPER_MOVING →
      EveryTickToggles s.lastStepTime inps →
      ((inps.length + (if s.pinStep then 1 else 0) : Nat) : Int)
        ≤ 2 * s.stepsRemainingInMove →
      ∃ t, runTicks inps s = some t ∧
        t.currentSortingStep = SortingStep.STEP_STEPPER_MOVING ∧
        t.stepPinWrites = s.stepPinWrites + inps.length ∧
        t.stepsRemainingInMove = s.stepsRemainingInMove -
          (((inps.length + (if s.pinStep then 1 else 0)) / 2 : Nat) : Int) ∧
        t.pinStep = xor s.pinStep (decide (inps.length % 2 = 1)) ∧
        t.pinEnable = s.pinEnable := by
  induction inps with
  | nil =>
    intro s hph _ _
    refine ⟨s, rfl, hph, rfl, ?_, ?_, rfl⟩
    · cases s.pinStep <;> simp
    · simp
  | cons inp rest ih =>
    intro s hph hsched hlen
    obtain ⟨hdue, hrest⟩ := hsched
    have hpos : 0 < s.stepsRemainingInMove := by
      simp only [List.length_cons] at hlen
      omega
    have htick := moving_tick_due s inp hph hpos hdue
    simp only [runTicks, htick, Option.some_bind]
    obtain ⟨sa, sr, pm, hc, rg, lt, st, w, q, wi, ph, sst, tw, ld, mg, ps, pw, pd, pe⟩ := s
    simp only [List.length_cons] at hph hlen hpos ⊢
    cases ps
    · obtain ⟨t, ht, h1, h2, h3, h4, h5⟩ := ih
        { systemActive := sa, stopRequested := sr, plainMode := pm, hx711_calibrated := hc,
          ranges := rg, lastStepTime := inp.micros, stepsRemainingInMove := st,
          currentEggWeight := w, eggQualityIsGood := q, weightClassificationIndex := wi,
          currentSortingStep := ph, stepStartTime := sst, testWeight := tw, loader := ld,
          mg996r := mg, pinStep := true, stepPinWrites := pw + 1, pinDir := pd,
          pinEnable := pe } hph hrest (by simp at hlen ⊢; omega)
      simp only [Bool.not_false, Bool.false_eq_true, if_false, if_true] at ht h2 h3 h4 h5 ⊢
      refine ⟨t, ht, h1, ?_, ?_, ?_, h5⟩
      · rw [h2]; omega
      · rw [h3]
      · rw [h4]
        rcases Nat.mod_two_eq_zero_or_one rest.length with h | h <;>
          simp [h, Nat.add_mod]
    · obtain ⟨t, ht, h1, h2, h3, h4, h5⟩ := ih
        { systemActive := sa, stopRequested := sr, plainMode := pm, hx711_calibrated := hc,
          ranges := rg, lastStepTime := inp.micros, stepsRemainingInMove := st - 1,
          currentEggWeight := w, eggQualityIsGood := q, weightClassificationIndex := wi,
          currentSortingStep := ph, stepStartTime := sst, testWeight := tw, loader := ld,
          mg996r := mg, pinStep := false, stepPinWrites := pw + 1, pinDir := pd,
          pinEnable := pe } hph hrest (by simp at hlen ⊢; omega)
      simp only [Bool.not_true, Bool.false_eq_true, if_false, if_true] at ht h2 h3 h4 h5 ⊢
      refine ⟨t, ht, h1, ?_, ?_, ?_, h5⟩
      · rw [h2]; omega
      · rw [h3]; simp; omega
      · rw [h4]
        rcases Nat.mod_two_eq_zero_or_one rest.length with h | h <;>
          simp [h, Nat.add_mod]

/-- A run makes its first tick and then the rest. -/
theorem runTicks_cons (inp : TickInput) (rest : List TickInput) (s : State) :
    runTicks (inp :: rest) s = (runContinuousSorting inp s).bind (runTicks rest) := rfl

/-- The train `pulseTrain start n` has `n` ticks. -/
theorem pulseTrain_length (start n : Nat) : (pulseTrain start n).length = n := by
  induction n generalizing start with
  | zero => rfl
  | succ n ih => simp [pulseTrain, ih]

/-- Every tick of `pulseTrain start n` is due. -/
theorem pulseTrain_due (start n : Nat) : EveryTickToggles start (pulseTrain start n) := by
  induction n generalizing start with
  | zero => trivial
  | succ n ih =>
    refine ⟨?_, ih _⟩
    show 800 ≤ ulongSub (start + 800) start
    rw [ulongSub_eq_mod (Nat.le_add_right _ _), Nat.add_sub_cancel_left]
    decide

/-- What a tick at or after `lastStepTime` does to the step line: `lastStepTime`
stays or becomes the tick time, and when the level changes the tick comes at least
800 microseconds after the old `lastStepTime`, which becomes the tick time. -/
theorem tick_step_line (s t : State) (inp : TickInput)
    (hle : s.lastStepTime ≤ inp.micros)
    (ht : runContinuousSorting inp s = some t) :
    (t.lastStepTime = s.lastStepTime ∨ t.lastStepTime = inp.micros) ∧
    (t.pinStep ≠ s.pinStep →
      t.lastStepTime = inp.micros ∧ s.lastStepTime + 800 ≤ inp.micros) := by
  have hsub := ulongSub_le_sub hle
  obtain ⟨sa, sr, pm, hc, rg, lt, st, w, q, wi, ph, sst, tw, ld, mg, ps, pw, pd, pe⟩ := s
  simp only at hle hsub
  cases ph
  case STEP_MOVE_TO_SCALE_INIT =>
    rw [moveInit_tick _ _ rfl] at ht
    cases ht
    simp
  all_goals
    simp only [runContinuousSorting, stepperMoving, weighRead, sortActuate, stopSystem,
      homeServo, STEP_PULSE_DELAY_US, ge_iff_le] at ht
  all_goals (try split_ifs at ht)
  all_goals (try split at ht)
  all_goals (try cases ht)
  all_goals simp
  all_goals omega

/-- In a run whose tick times do not decrease and start at or after `lastStepTime`,
the ticks that change the step line are at least 800 microseconds apart, the first
one at least 800 after any time up to `lastStepTime`. -/
theorem toggleTimes_spaced (inps : List TickInput) :
    ∀ (s : State) (last : Nat), last ≤ s.lastStepTime →
      List.Chain (fun a b => a ≤ b) s.lastStepTime (inps.map (fun i => i.micros)) →
      List.Chain (fun a b => a + 800 ≤ b) last (toggleTimes inps s) := by
  induction inps with
  | nil => intro s last _ _; exact List.Chain.nil
  | cons inp rest ih =>
    intro s last hlast hmono
    simp only [List.map_cons, List.chain_cons] at hmono
    obtain ⟨hle, hrest⟩ := hmono
    simp only [toggleTimes]
    cases hrun : runContinuousSorting inp s with
    | none => exact List.Chain.nil
    | some t =>
      obtain ⟨hkeep, htog⟩ := tick_step_line s t inp hle hrun
      have ht_le : t.lastStepTime ≤ inp.micros := by
        rcases hkeep with h | h <;> omega
      have hrest2 : List.Chain (fun a b => a ≤ b) t.lastStepTime
          (rest.map (fun i => i.micros)) :=
        List.Chain.imp' (fun _ _ h => h) (fun _ h => le_trans ht_le h) hrest
      by_cases hp : t.pinStep = s.pinStep
      · simp only [hp, if_true, List.nil_append]
        exact ih t last (by rcases hkeep with h | h <;> omega) hrest2
      · obtain ⟨h1, h2⟩ := htog hp
        simp only [hp, if_false, List.singleton_append]
        exact List.Chain.cons (by omega) (ih t inp.micros (by omega) hrest2)

/-- The classifier returns one of the four bin indices. -/
theorem classifyEgg_cases (w : CFloat) (r : RangeConfig) :
    classifyEgg w r = 0 ∨ classifyEgg w r = 1 ∨ classifyEgg w r = 2 ∨ classifyEgg w r = 3 := by
  unfold classifyEgg
  split_ifs <;> simp

/-- A command never makes the step counter negative. -/
theorem handleCommand_steps_nonneg (now : Nat) (c : Command) (s : State)
    (h : 0 ≤ s.stepsRemainingInMove) : 0 ≤ (handleCommand now c s).stepsRemainingInMove := by
  obtain ⟨sa, sr, pm, hc, rg, lt, st, w, q, wi, ph, sst, tw, ld, mg, ps, pw, pd, pe⟩ := s
  simp only at h
  cases c with
  | START args => cases args <;> cases sa <;> simpa [handleCommand, startSystem, applyRanges]
  | START_PLAIN args =>
    cases args <;> cases sa <;> simpa [handleCommand, startSystem, applyRanges]
  | STOP => cases sa <;> simpa [handleCommand]
  | HOME => simpa [handleCommand, homeServo]
  | STATUS => simpa [handleCommand]
  | QUALITY arg => cases arg <;> simp only [handleCommand] <;> split_ifs <;> simpa
  | SET_RANGES args => cases args <;> simpa [handleCommand, applyRanges]
  | RUN => cases sa <;> simpa [handleCommand, startSystem]
  | unknown => simpa [handleCommand]
  | CALIBRATE_HX711 ready => cases ready <;> simpa [handleCommand, calibrateHX711]
  | CALIBRATE_UNO => simpa [handleCommand, calibrateUno_eq]
  | CALIBRATE_NEMA23 => simpa [handleCommand, calibrateNema23_eq]
  | CALIBRATE_LOADER => simpa [handleCommand, calibrateLoaderServo]
  | CALIBRATE_MG996R => simpa [handleCommand, calibrateMG996R]

/-- A tick never makes the step counter negative. -/
theorem tick_steps_nonneg (inp : TickInput) (s t : State)
    (h : 0 ≤ s.stepsRemainingInMove) (ht : runContinuousSorting inp s = some t) :
    0 ≤ t.stepsRemainingInMove := by
  obtain ⟨sa, sr, pm, hc, rg, lt, st, w, q, wi, ph, sst, tw, ld, mg, ps, pw, pd, pe⟩ := s
  simp only at h
  cases ph
  case STEP_MOVE_TO_SCALE_INIT =>
    rw [moveInit_tick _ _ rfl] at ht
    cases ht
    simp
  all_goals
    simp only [runContinuousSorting, stepperMoving, weighRead, sortActuate, stopSystem,
      homeServo] at ht
  all_goals (try split_ifs at ht)
  all_goals (try split at ht)
  all_goals (try cases ht)
  all_goals simp
  all_goals omega

/-- In every reachable state the step counter is not negative. -/
theorem reachable_steps_nonneg (s : State) (h : Reachable s) : 0 ≤ s.stepsRemainingInMove := by
  induction h with
  | init c => simp [initialState]
  | step e s t _ hstep ih =>
    cases e with
    | command now c =>
      simp only [systemStep, Option.some.injEq] at hstep
      subst hstep
      exact handleCommand_steps_nonneg now c s ih
    | tick inp =>
      simp only [systemStep, loopTick] at hstep
      split_ifs at hstep
      · exact tick_steps_nonneg inp s t ih hstep
      · cases hstep
        exact ih

/-- With verdict GOOD and a weight bin that the classifier returned, the ACTUATE tick
writes the table entry of that bin and enters DROP_WAIT. -/
theorem actuate_good_uses_bin (s : State) (inp : TickInput) (w : CFloat) (r : RangeConfig)
    (hphase : s.currentSortingStep = SortingStep.STEP_SORT_ACTUATE)
    (hgood : s.eggQualityIsGood = true)
    (hbin : s.weightClassificationIndex = classifyEgg w r) :
    ∃ u a, runContinuousSorting inp s = some u ∧
      ([15, 70, 125, 170] : List Int).get? (classifyEgg w r).toNat = some a ∧
      u.mg996r.angle = a ∧
      u.currentSortingStep = SortingStep.STEP_EGG_DROP_WAIT := by
  obtain ⟨sa, sr, pm, hc, rg, lt, st, w0, q, wi, ph, sst, tw, ld, mg, ps, pw, pd, pe⟩ := s
  simp only at hphase hgood hbin
  subst hphase hgood
  rcases classifyEgg_cases w r with h | h | h | h <;> rw [h] at hbin ⊢ <;> subst hbin <;>
    simp [runContinuousSorting, sortActuate, positionAt, MG996R_POSITIONS, Servo.write]

/-- A command keeps the fact that the system is active outside phase IDLE. -/
theorem handleCommand_active_of_not_idle (now : Nat) (c : Command) (s : State)
    (h : s.currentSortingStep ≠ SortingStep.STEP_IDLE → s.systemActive = true) :
    (handleCommand now c s).currentSortingStep ≠ SortingStep.STEP_IDLE →
      (handleCommand now c s).systemActive = true := by
  obtain ⟨sa, sr, pm, hc, rg, lt, st, w, q, wi, ph, sst, tw, ld, mg, ps, pw, pd, pe⟩ := s
  simp only at h
  cases c with
  | START args =>
    cases args <;> cases sa <;> simp_all [handleCommand, startSystem, applyRanges]
  | START_PLAIN args =>
    cases args <;> cases sa <;> simp_all [handleCommand, startSystem, applyRanges]
  | STOP => cases sa <;> simp_all [handleCommand]
  | HOME => simpa [handleCommand, homeServo] using h
  | STATUS => simpa [handleCommand] using h
  | QUALITY arg =>
    cases arg <;> simp only [handleCommand] <;> split_ifs <;> simp_all
  | SET_RANGES args => cases args <;> simpa [handleCommand, applyRanges] using h
  | RUN => cases sa <;> simp_all [handleCommand, startSystem]
  | unknown => simpa [handleCommand] using h
  | CALIBRATE_HX711 ready => cases ready <;> simpa [handleCommand, calibrateHX711] using h
  | CALIBRATE_UNO => simpa [handleCommand, calibrateUno_eq] using h
  | CALIBRATE_NEMA23 => simpa [handleCommand, calibrateNema23_eq] using h
  | CALIBRATE_LOADER => simpa [handleCommand, calibrateLoaderServo] using h
  | CALIBRATE_MG996R => simpa [handleCommand, calibrateMG996R] using h

/-- A tick of an active system leaves it active or ends in phase IDLE. -/
theorem tick_active_or_idle (inp : TickInput) (s t : State)
    (h : s.systemActive = true) (ht : runContinuousSorting inp s = some t) :
    t.systemActive = true ∨ t.currentSortingStep = SortingStep.STEP_IDLE := by
  obtain ⟨sa, sr, pm, hc, rg, lt, st, w, q, wi, ph, sst, tw, ld, mg, ps, pw, pd, pe⟩ := s
  simp only at h
  subst h
  cases ph
  case STEP_MOVE_TO_SCALE_INIT =>
    rw [moveInit_tick _ _ rfl] at ht
    cases ht
    simp
  all_goals
    simp only [runContinuousSorting, stepperMoving, weighRead, sortActuate, stopSystem,
      homeServo] at ht
  all_goals (try split_ifs at ht)
  all_goals (try split at ht)
  all_goals (try cases ht)
  all_goals simp

/-- In every reachable state outside phase IDLE the system is active. -/
theorem reachable_active_of_not_idle (s : State) (h : Reachable s) :
    s.currentSortingStep ≠ SortingStep.STEP_IDLE → s.systemActive = true := by
  induction h with
  | init c => simp [initialState]
  | step e s t _ hstep ih =>
    cases e with
    | command now c =>
      simp only [systemStep, Option.some.injEq] at hstep
      subst hstep
      exact handleCommand_active_of_not_idle now c s ih
    | tick inp =>
      simp only [systemStep, loopTick] at hstep
      split_ifs at hstep with ha
      · intro hne
        rcases tick_active_or_idle inp s t ha hstep with h | h
        · exact h
        · exact absurd h hne
      · cases hstep
        exact ih

/-- Across a wrap of the counter the `unsigned long` difference is the true elapsed
time, as long as that is below `2 ^ 32`. -/
theorem ulongSub_wrap (start e : Nat) (he : e < ULONG_MOD) :
    ulongSub ((start + e) % ULONG_MOD) start = e := by
  simp only [ulongSub, ULONG_MOD] at he ⊢
  omega

/-- The degraded branch of the weigh step updates the test weight by
`nextTestWeight` and stores it. -/
theorem weighRead_degraded (inp : TickInput) (s : State)
    (h : (inp.hxReady && s.hx711_calibrated) = false) :
    (weighRead inp s).testWeight = nextTestWeight s.testWeight ∧
    (weighRead inp s).currentEggWeight = nextTestWeight s.testWeight := by
  simp only [weighRead, h, nextTestWeight]
  split_ifs <;> simp_all

/-- The ready and calibrated branch of the weigh step stores the reading and keeps the
test weight. -/
theorem weighRead_measured (inp : TickInput) (s : State)
    (h : (inp.hxReady && s.hx711_calibrated) = true) :
    (weighRead inp s).testWeight = s.testWeight ∧
    (weighRead inp s).currentEggWeight = inp.hxUnits := by
  simp only [weighRead, h]
  split_ifs <;> simp_all

/-- The test weights follow each other in the cycle 47, 72, ..., 347, 47. -/
theorem nextTestWeight_cycle (k : Nat) (hk : k ≤ 12) :
    nextTestWeight (CFloat.finite (47 + 25 * (k : ℚ)))
      = CFloat.finite (47 + 25 * (((k + 1) % 13 : Nat) : ℚ)) := by
  interval_cases k <;> norm_num [nextTestWeight, CFloat.add, CFloat.gt, CFloat.lt]

/-- The successor of a test weight is a test weight. -/
theorem nextTestWeight_isTestWeight (w : CFloat) (h : IsTestWeight w) :
    IsTestWeight (nextTestWeight w) := by
  obtain ⟨k, hk, rfl⟩ := h
  exact ⟨(k + 1) % 13, by omega, nextTestWeight_cycle k hk⟩

/-- A tick keeps the test weight or, in phase WEIGH, replaces it by its successor. -/
theorem tick_testWeight (inp : TickInput) (s t : State)
    (ht : runContinuousSorting inp s = some t) :
    t.testWeight = s.testWeight ∨ t.testWeight = nextTestWeight s.testWeight := by
  by_cases hw : s.currentSortingStep = SortingStep.STEP_WEIGH_READ
  · have hrun : runContinuousSorting inp s = some (weighRead inp s) := by
      obtain ⟨sa, sr, pm, hc, rg, lt, st, w, q, wi, ph, sst, tw, ld, mg, ps, pw, pd, pe⟩ := s
      simp only at hw
      subst hw
      rfl
    rw [hrun] at ht
    cases ht
    cases h : (inp.hxReady && s.hx711_calibrated)
    · exact Or.inr (weighRead_degraded inp s h).1
    · exact Or.inl (weighRead_measured inp s h).1
  · refine Or.inl ?_
    obtain ⟨sa, sr, pm, hc, rg, lt, st, w, q, wi, ph, sst, tw, ld, mg, ps, pw, pd, pe⟩ := s
    simp only at hw
    cases ph <;>
      first
        | exact absurd rfl hw
        | (rw [moveInit_tick _ _ rfl] at ht
           cases ht
           rfl)
        | (simp only [runContinuousSorting, stepperMoving, sortActuate, stopSystem,
             homeServo] at ht
           (try split_ifs at ht) <;> (try split at ht) <;> (try cases ht) <;> rfl)

/-- A command keeps the test weight. -/
theorem handleCommand_testWeight (now : Nat) (c : Command) (s : State) :
    (handleCommand now c s).testWeight = s.testWeight := by
  obtain ⟨sa, sr, pm, hc, rg, lt, st, w, q, wi, ph, sst, tw, ld, mg, ps, pw, pd, pe⟩ := s
  cases c with
  | START args => cases args <;> cases sa <;> simp [handleCommand, startSystem, applyRanges]
  | START_PLAIN args =>
    cases args <;> cases sa <;> simp [handleCommand, startSystem, applyRanges]
  | STOP => cases sa <;> simp [handleCommand]
  | HOME => simp [handleCommand, homeServo]
  | STATUS => simp [handleCommand]
  | QUALITY arg => cases arg <;> simp only [handleCommand] <;> split_ifs <;> rfl
  | SET_RANGES args => cases args <;> simp [handleCommand, applyRanges]
  | RUN => cases sa <;> simp [handleCommand, startSystem]
  | unknown => simp [handleCommand]
  | CALIBRATE_HX711 ready => cases ready <;> simp [handleCommand, calibrateHX711]
  | CALIBRATE_UNO => simp [handleCommand, calibrateUno_eq]
  | CALIBRATE_NEMA23 => simp [handleCommand, calibrateNema23_eq]
  | CALIBRATE_LOADER => simp [handleCommand, calibrateLoaderServo]
  | CALIBRATE_MG996R => simp [handleCommand, calibrateMG996R]

/-- In every reachable state the test weight is one of `47 + 25 k`, `k` from 0 to
12. -/
theorem reachable_testWeight (s : State) (h : Reachable s) : IsTestWeight s.testWeight := by
  induction h with
  | init c => exact ⟨0, by omega, by simp [initialState]⟩
  | step e s t _ hstep ih =>
    cases e with
    | command now c =>
      simp only [systemStep, Option.some.injEq] at hstep
      subst hstep
      rw [handleCommand_testWeight]
      exact ih
    | tick inp =>
      simp only [systemStep, loopTick] at hstep
      split_ifs at hstep
      · rcases tick_testWeight inp s t hstep with h | h
        · rw [h]; exact ih
        · rw [h]; exact nextTestWeight_isTestWeight _ ih
      · cases hstep
        exact ih

/-- A test weight is positive and at most 350. -/
theorem isTestWeight_bounds (w : CFloat) (h : IsTestWeight w) :
    (CFloat.finite 0).lt w = true ∧ w.le (CFloat.finite 350) = true := by
  obtain ⟨k, hk, rfl⟩ := h
  have hk2 : (k : ℚ) ≤ 12 := by exact_mod_cast hk
  have hk0 : (0 : ℚ) ≤ (k : ℚ) := Nat.cast_nonneg k
  simp only [CFloat.lt, CFloat.le, decide_eq_true_eq]
  constructor <;> linarith

/-- A command keeps the control invariant. -/
theorem handleCommand_controlInv (now : Nat) (c : Command) (s : State)
    (h : ControlInv s) : ControlInv (handleCommand now c s) := by
  obtain ⟨sa, sr, pm, hc, rg, lt, st, w, q, wi, ph, sst, tw, ld, mg, ps, pw, pd, pe⟩ := s
  simp only [ControlInv] at h ⊢
  obtain ⟨h1, h2, h3, h4, h5⟩ := h
  cases c with
  | START args =>
    cases args <;> cases sa <;> simp_all [handleCommand, startSystem, applyRanges]
  | START_PLAIN args =>
    cases args <;> cases sa <;> simp_all [handleCommand, startSystem, applyRanges]
  | STOP => cases sa <;> simp_all [handleCommand]
  | HOME => simp_all [handleCommand, homeServo]
  | STATUS => simp_all [handleCommand]
  | QUALITY arg =>
    cases arg <;> simp only [handleCommand] <;> split_ifs <;> simp_all
  | SET_RANGES args => cases args <;> simp_all [handleCommand, applyRanges]
  | RUN => cases sa <;> simp_all [handleCommand, startSystem]
  | unknown => simp_all [handleCommand]
  | CALIBRATE_HX711 ready => cases ready <;> simp_all [handleCommand, calibrateHX711]
  | CALIBRATE_UNO => simp_all [handleCommand, calibrateUno_eq]
  | CALIBRATE_NEMA23 => simp_all [handleCommand, calibrateNema23_eq]
  | CALIBRATE_LOADER => simp_all [handleCommand, calibrateLoaderServo]
  | CALIBRATE_MG996R => simp_all [handleCommand, calibrateMG996R]

/-- A tick of an active system keeps the control invariant. -/
theorem tick_controlInv (inp : TickInput) (s t : State)
    (h : ControlInv s) (ha : s.systemActive = true)
    (ht : runContinuousSorting inp s = some t) : ControlInv t := by
  obtain ⟨sa, sr, pm, hc, rg, lt, st, w, q, wi, ph, sst, tw, ld, mg, ps, pw, pd, pe⟩ := s
  simp only [ControlInv] at h
  simp only at ha
  subst ha
  obtain ⟨h1, h2, h3, h4, h5⟩ := h
  cases ph
  case STEP_MOVE_TO_SCALE_INIT =>
    rw [moveInit_tick _ _ rfl] at ht
    cases ht
    simp [ControlInv]
  all_goals
    simp only [runContinuousSorting, stepperMoving, weighRead, sortActuate, stopSystem,
      homeServo] at ht
  all_goals (try split_ifs at ht)
  all_goals (try split at ht)
  all_goals (try cases ht)
  all_goals simp_all [ControlInv]
  all_goals omega

/-- Every reachable state satisfies the control invariant. -/
theorem reachable_controlInv (s : State) (h : Reachable s) : ControlInv s := by
  induction h with
  | init c => simp [ControlInv, initialState]
  | step e s t _ hstep ih =>
    cases e with
    | command now c =>
      simp only [systemStep, Option.some.injEq] at hstep
      subst hstep
      exact handleCommand_controlInv now c s ih
    | tick inp =>
      simp only [systemStep, loopTick] at hstep
      split_ifs at hstep with ha
      · exact tick_controlInv inp s t ih ha hstep
      · cases hstep
        exact ih

/-- A run of events from a reachable state ends in a reachable state. -/
theorem reachable_runEvents (es : List Event) :
    ∀ s t : State, Reachable s → runEvents es s = some t → Reachable t := by
  induction es with
  | nil =>
    intro s t hs h
    simp only [runEvents, Option.some.injEq] at h
    subst h
    exact hs
  | cons e rest ih =>
    intro s t hs h
    simp only [runEvents] at h
    cases hstep : systemStep e s with
    | none => simp [hstep] at h
    | some u =>
      rw [hstep, Option.some_bind] at h
      exact ih u t (Reachable.step e s u hs hstep) h

/-- The state `exampleStarted` is reachable, by `exampleEvents`. -/
theorem exampleStarted_reachable : Reachable exampleStarted :=
  reachable_runEvents exampleEvents (initialState true) exampleStarted
    (Reachable.init true) (by decide)

/-- A command keeps the stored weight bin. -/
theorem handleCommand_index (now : Nat) (c : Command) (s : State) :
    (handleCommand now c s).weightClassificationIndex = s.weightClassificationIndex := by
  obtain ⟨sa, sr, pm, hc, rg, lt, st, w, q, wi, ph, sst, tw, ld, mg, ps, pw, pd, pe⟩ := s
  cases c with
  | START args => cases args <;> cases sa <;> simp [handleCommand, startSystem, applyRanges]
  | START_PLAIN args =>
    cases args <;> cases sa <;> simp [handleCommand, startSystem, applyRanges]
  | STOP => cases sa <;> simp [handleCommand]
  | HOME => simp [handleCommand, homeServo]
  | STATUS => simp [handleCommand]
  | QUALITY arg => cases arg <;> simp only [handleCommand] <;> split_ifs <;> rfl
  | SET_RANGES args => cases args <;> simp [handleCommand, applyRanges]
  | RUN => cases sa <;> simp [handleCommand, startSystem]
  | unknown => simp [handleCommand]
  | CALIBRATE_HX711 ready => cases ready <;> simp [handleCommand, calibrateHX711]
  | CALIBRATE_UNO => simp [handleCommand, calibrateUno_eq]
  | CALIBRATE_NEMA23 => simp [handleCommand, calibrateNema23_eq]
  | CALIBRATE_LOADER => simp [handleCommand, calibrateLoaderServo]
  | CALIBRATE_MG996R => simp [handleCommand, calibrateMG996R]

/-- A tick keeps the stored weight bin or stores a value of the classifier. -/
theorem tick_index (inp : TickInput) (s t : State)
    (ht : runContinuousSorting inp s = some t) :
    t.weightClassificationIndex = s.weightClassificationIndex ∨
      ∃ (w : CFloat) (r : RangeConfig), t.weightClassificationIndex = classifyEgg w r := by
  by_cases hw : s.currentSortingStep = SortingStep.STEP_WEIGH_READ
  · have hrun : runContinuousSorting inp s = some (weighRead inp s) := by
      obtain ⟨sa, sr, pm, hc, rg, lt, st, w, q, wi, ph, sst, tw, ld, mg, ps, pw, pd, pe⟩ := s
      simp only at hw
      subst hw
      rfl
    rw [hrun] at ht
    cases ht
    refine Or.inr ⟨(weighRead inp s).currentEggWeight, s.ranges, ?_⟩
    simp only [weighRead]
    split_ifs <;> rfl
  · refine Or.inl ?_
    obtain ⟨sa, sr, pm, hc, rg, lt, st, w, q, wi, ph, sst, tw, ld, mg, ps, pw, pd, pe⟩ := s
    simp only at hw
    cases ph <;>
      first
        | exact absurd rfl hw
        | (rw [moveInit_tick _ _ rfl] at ht
           cases ht
           rfl)
        | (simp only [runContinuousSorting, stepperMoving, sortActuate, stopSystem,
             homeServo] at ht
           (try split_ifs at ht) <;> (try split at ht) <;> (try cases ht) <;> rfl)

/-- In every reachable state the stored weight bin is 0 or a value of the
classifier. -/
theorem reachable_index (s : State) (h : Reachable s) :
    s.weightClassificationIndex = 0 ∨
      ∃ (w : CFloat) (r : RangeConfig), s.weightClassificationIndex = classifyEgg w r := by
  induction h with
  | init c => exact Or.inl rfl
  | step e s t _ hstep ih =>
    cases e with
    | command now c =>
      simp only [systemStep, Option.some.injEq] at hstep
      subst hstep
      rw [handleCommand_index]
      exact ih
    | tick inp =>
      simp only [systemStep, loopTick] at hstep
      split_ifs at hstep
      · rcases tick_index inp s t hstep with h | h
        · rw [h]; exact ih
        · exact Or.inr h
      · cases hstep
        exact ih

/-- With a stored weight bin in 0..3 the ACTUATE tick reads the angle table in
bounds and writes the angle it read. -/
theorem actuate_in_bounds (s : State) (inp : TickInput)
    (hphase : s.currentSortingStep = SortingStep.STEP_SORT_ACTUATE)
    (h0 : 0 ≤ s.weightClassificationIndex) (h3 : s.weightClassificationIndex ≤ 3) :
    ∃ (i a : Int) (t : State),
      i = (if !s.eggQualityIsGood || s.weightClassificationIndex == 0 then 0
           else s.weightClassificationIndex) ∧
      0 ≤ i ∧ i ≤ 3 ∧ positionAt i = some a ∧
      runContinuousSorting inp s = some t ∧ t.mg996r.angle = a := by
  obtain ⟨sa, sr, pm, hc, rg, lt, st, w, q, wi, ph, sst, tw, ld, mg, ps, pw, pd, pe⟩ := s
  simp only at hphase h0 h3
  subst hphase
  have hwi : wi = 0 ∨ wi = 1 ∨ wi = 2 ∨ wi = 3 := by omega
  rcases hwi with h | h | h | h <;> subst h <;> cases q <;>
    simp [runContinuousSorting, sortActuate, positionAt, MG996R_POSITIONS, Servo.write]

/-- The comparison `<=` of `float` is transitive. -/
theorem cfloat_le_trans {a b c : CFloat} (h1 : a.le b = true) (h2 : b.le c = true) :
    a.le c = true := by
  cases a <;> cases b <;> cases c <;> simp_all [CFloat.le]
  exact le_trans h1 h2

/-- From `a <= b` and `b < c` follows `a < c` on `float`. -/
theorem cfloat_le_lt_trans {a b c : CFloat} (h1 : a.le b = true) (h2 : b.lt c = true) :
    a.lt c = true := by
  cases a <;> cases b <;> cases c <;> simp_all [CFloat.le, CFloat.lt]
  exact lt_of_le_of_lt h1 h2

/-- From `a < b` and `b <= c` follows `a < c` on `float`. -/
theorem cfloat_lt_le_trans {a b c : CFloat} (h1 : a.lt b = true) (h2 : b.le c = true) :
    a.lt c = true := by
  cases a <;> cases b <;> cases c <;> simp_all [CFloat.le, CFloat.lt]
  exact lt_of_lt_of_le h1 h2

/-- The comparison `<` of `float` is transitive. -/
theorem cfloat_lt_trans {a b c : CFloat} (h1 : a.lt b = true) (h2 : b.lt c = true) :
    a.lt c = true := by
  cases a <;> cases b <;> cases c <;> simp_all [CFloat.lt]
  exact lt_trans h1 h2

/-- No `float` is below itself. -/
theorem cfloat_lt_irrefl (a : CFloat) : a.lt a = false := by
  cases a <;> simp [CFloat.lt]

/-- The classifier answers LARGE only at or above `largeMin`. -/
theorem classifyEgg_large_inv (w : CFloat) (r : RangeConfig) (h : classifyEgg w r = 3) :
    r.largeMin.le w = true := by
  unfold classifyEgg at h
  split_ifs at h <;> simp_all [CFloat.ge]

/-- At or above `largeMin` the classifier answers BAD or LARGE. -/
theorem classifyEgg_of_large (w : CFloat) (r : RangeConfig) (h : r.largeMin.le w = true) :
    classifyEgg w r = 0 ∨ classifyEgg w r = 3 := by
  unfold classifyEgg
  split_ifs <;> simp_all [CFloat.ge]

/-- The classifier answers MEDIUM only within the medium range. -/
theorem classifyEgg_medium_inv (w : CFloat) (r : RangeConfig) (h : classifyEgg w r = 2) :
    r.mediumMin.le w = true ∧ w.le r.mediumMax = true := by
  unfold classifyEgg at h
  split_ifs at h <;> simp_all [CFloat.ge]

/-- The classifier answers SMALL only within the small range or below `smallMin`. -/
theorem classifyEgg_small_inv (w : CFloat) (r : RangeConfig) (h : classifyEgg w r = 1) :
    w.le r.smallMax = true ∨ w.lt r.smallMin = true := by
  unfold classifyEgg at h
  split_ifs at h <;> simp_all [CFloat.ge]

/-- C1. For every weight and every range configuration, `classifyEgg` returns the bin
of the first matching rule of the ordered rule list (negative gives BAD, at least
`largeMin` gives LARGE, within the medium range gives MEDIUM, at least `smallMin`
gives SMALL up to `smallMax` and BAD above it, positive below `smallMin` gives SMALL,
anything else BAD); with the default ranges, -1 and 0 give BAD and 47 gives MEDIUM. -/
theorem classifyEgg_first_match :
    (∀ (w : CFloat) (cfg : RangeConfig),
      classifyEgg w cfg = firstMatch (classifyRules w cfg)) ∧
    classifyEgg (CFloat.finite (-1)) defaultRanges = BAD ∧
    classifyEgg (CFloat.finite 0) defaultRanges = BAD ∧
    classifyEgg (CFloat.finite 47) defaultRanges = MEDIUM := by
  refine ⟨?_, ?_, ?_, ?_⟩
  · intro w cfg
    simp only [classifyEgg, classifyRules, firstMatch, CFloat.ge, CFloat.gt, BAD, SMALL,
      MEDIUM, LARGE]
  · decide
  · decide
  · decide

/-- C3. In phase STEPPER_MOVING with steps outstanding: when the `unsigned long`
difference between the tick time and `lastStepTime` is below 800 the tick changes
nothing; otherwise it inverts the step line with one write, sets `lastStepTime` to the
tick time, and lowers the step counter by one exactly when the line was high.  So a
tick writes the step line at most once and takes at most one step off the counter,
however large the difference is. -/
theorem stepper_tick_at_most_one_toggle (s : State) (inp : TickInput)
    (hphase : s.currentSortingStep = SortingStep.STEP_STEPPER_MOVING)
    (hsteps : 0 < s.stepsRemainingInMove) :
    (ulongSub inp.micros s.lastStepTime < 800 → runContinuousSorting inp s = some s) ∧
    (800 ≤ ulongSub inp.micros s.lastStepTime →
      runContinuousSorting inp s = some
        { s with
          pinStep := !s.pinStep
          stepPinWrites := s.stepPinWrites + 1
          lastStepTime := inp.micros
          stepsRemainingInMove :=
            if s.pinStep then s.stepsRemainingInMove - 1 else s.stepsRemainingInMove }) ∧
    (∃ t, runContinuousSorting inp s = some t ∧
      t.stepPinWrites ≤ s.stepPinWrites + 1 ∧
      s.stepsRemainingInMove - 1 ≤ t.stepsRemainingInMove ∧
      t.stepsRemainingInMove ≤ s.stepsRemainingInMove) := by
  obtain ⟨sa, sr, pm, hc, rg, lt, st, w, q, wi, ph, sst, tw, ld, mg, ps, pw, pd, pe⟩ := s
  simp only at hphase hsteps
  subst hphase
  simp only [runContinuousSorting, stepperMoving, gt_iff_lt, hsteps, if_true,
    STEP_PULSE_DELAY_US, ge_iff_le]
  refine ⟨?_, ?_, ?_⟩
  · intro h
    rw [if_neg (by omega)]
  · intro h
    rw [if_pos h]
    cases ps <;> simp
  · split_ifs <;> simp

/-- Witness of C3 at `exampleMoving`: a tick 8000 microseconds after the last toggle
makes one toggle and takes one step. -/
theorem stepper_tick_at_most_one_toggle_witness :
    exampleMoving.currentSortingStep = SortingStep.STEP_STEPPER_MOVING ∧
    0 < exampleMoving.stepsRemainingInMove ∧
    800 ≤ ulongSub 9000 exampleMoving.lastStepTime ∧
    runContinuousSorting { exampleTick with micros := 9000 } exampleMoving = some
      { exampleMoving with
        pinStep := false
        stepPinWrites := 1
        lastStepTime := 9000
        stepsRemainingInMove := 4 } :=
  ⟨rfl, by decide, by decide,
    (stepper_tick_at_most_one_toggle exampleMoving { exampleTick with micros := 9000 } rfl
      (by decide)).2.1 (by decide)⟩

/-- C4. A QUALITY command changes the state exactly when the phase is WAIT_QUALITY
and the argument is GOOD or BAD; then it sets the verdict (true for GOOD, false for
BAD) and the phase ACTUATE and nothing else, and a further QUALITY command leaves that
state as it is. -/
theorem quality_accepted_only_while_waiting (now : Nat) (arg : QualityArg) (s : State) :
    (handleCommand now (Command.QUALITY arg) s ≠ s ↔
      s.currentSortingStep = SortingStep.STEP_WAIT_FOR_QUALITY ∧
        (arg = QualityArg.GOOD ∨ arg = QualityArg.BAD)) ∧
    (s.currentSortingStep = SortingStep.STEP_WAIT_FOR_QUALITY →
      handleCommand now (Command.QUALITY QualityArg.GOOD) s =
        { s with eggQualityIsGood := true,
                 currentSortingStep := SortingStep.STEP_SORT_ACTUATE } ∧
      handleCommand now (Command.QUALITY QualityArg.BAD) s =
        { s with eggQualityIsGood := false,
                 currentSortingStep := SortingStep.STEP_SORT_ACTUATE }) ∧
    (handleCommand now (Command.QUALITY arg) s ≠ s →
      ∀ (later : Nat) (arg2 : QualityArg),
        handleCommand later (Command.QUALITY arg2) (handleCommand now (Command.QUALITY arg) s)
          = handleCommand now (Command.QUALITY arg) s) := by
  obtain ⟨sa, sr, pm, hc, rg, lt, st, w, q, wi, ph, sst, tw, ld, mg, ps, pw, pd, pe⟩ := s
  refine ⟨?_, ?_, ?_⟩
  · cases arg <;> simp only [handleCommand] <;> split_ifs with h <;> simp_all
  · intro h
    simp only at h
    subst h
    simp [handleCommand]
  · intro hne later arg2
    cases arg <;> simp only [handleCommand] at hne ⊢ <;> split_ifs at hne ⊢ <;> simp_all

/-- Witness of C4 at `exampleWaiting`: GOOD is accepted, the BAD sent after it is
rejected and the verdict stays GOOD. -/
theorem quality_accepted_only_while_waiting_witness :
    exampleWaiting.currentSortingStep = SortingStep.STEP_WAIT_FOR_QUALITY ∧
    handleCommand 20 (Command.QUALITY QualityArg.GOOD) exampleWaiting ≠ exampleWaiting ∧
    handleCommand 30 (Command.QUALITY QualityArg.BAD)
        (handleCommand 20 (Command.QUALITY QualityArg.GOOD) exampleWaiting)
      = { exampleWaiting with eggQualityIsGood := true,
                              currentSortingStep := SortingStep.STEP_SORT_ACTUATE } :=
  have h := quality_accepted_only_while_waiting 20 QualityArg.GOOD exampleWaiting
  ⟨rfl, h.1.2 ⟨rfl, Or.inl rfl⟩,
    (h.2.2 (h.1.2 ⟨rfl, Or.inl rfl⟩) 30 QualityArg.BAD).trans (h.2.1 rfl).1⟩

/-- C5. In phase ACTUATE the tick writes the diverter once, records the tick time as
the hold start and enters DROP_WAIT; the angle is 15 (BAD) whenever the verdict is not
GOOD, whatever the weight bin, and with verdict GOOD and weight bin `i` in 0..3 it is
entry `i` of the table 15, 70, 125, 170.  With the bin of 47 g under the default
ranges and verdict GOOD the angle is 125. -/
theorem actuate_tick_angle (s : State) (inp : TickInput)
    (hphase : s.currentSortingStep = SortingStep.STEP_SORT_ACTUATE) :
    (s.eggQualityIsGood = false →
      runContinuousSorting inp s = some
        { s with
          mg996r := { angle := 15, writes := s.mg996r.writes + 1 }
          stepStartTime := inp.millis
          currentSortingStep := SortingStep.STEP_EGG_DROP_WAIT }) ∧
    (s.eggQualityIsGood = true →
      ∀ (i : Nat) (a : Int), s.weightClassificationIndex = (i : Int) →
        ([15, 70, 125, 170] : List Int).get? i = some a →
        runContinuousSorting inp s = some
          { s with
            mg996r := { angle := a, writes := s.mg996r.writes + 1 }
            stepStartTime := inp.millis
            currentSortingStep := SortingStep.STEP_EGG_DROP_WAIT }) ∧
    (s.eggQualityIsGood = true →
      s.weightClassificationIndex = classifyEgg (CFloat.finite 47) defaultRanges →
      (runContinuousSorting inp s).map (fun t => t.mg996r.angle) = some 125) := by
  obtain ⟨sa, sr, pm, hc, rg, lt, st, w, q, wi, ph, sst, tw, ld, mg, ps, pw, pd, pe⟩ := s
  simp only at hphase
  subst hphase
  refine ⟨?_, ?_, ?_⟩
  · intro hq
    simp only at hq
    subst hq
    simp [runContinuousSorting, sortActuate, positionAt, MG996R_POSITIONS, Servo.write]
  · intro hq i a hi ha
    simp only at hq hi
    subst hq hi
    rcases i with _ | _ | _ | _ | i
    · simp at ha
      subst ha
      simp [runContinuousSorting, sortActuate, positionAt, MG996R_POSITIONS, Servo.write]
    · simp at ha
      subst ha
      simp [runContinuousSorting, sortActuate, positionAt, MG996R_POSITIONS, Servo.write]
    · simp at ha
      subst ha
      simp [runContinuousSorting, sortActuate, positionAt, MG996R_POSITIONS, Servo.write]
    · simp at ha
      subst ha
      simp [runContinuousSorting, sortActuate, positionAt, MG996R_POSITIONS, Servo.write]
    · simp at ha
  · intro hq hi
    simp only at hq hi
    have h47 : classifyEgg (CFloat.finite 47) defaultRanges = 2 := by decide
    rw [h47] at hi
    subst hq hi
    simp [runContinuousSorting, sortActuate, positionAt, MG996R_POSITIONS, Servo.write]

/-- Witness of C5 at `exampleActuate`: 47 g, default ranges, verdict GOOD. -/
theorem actuate_tick_angle_witness :
    exampleActuate.currentSortingStep = SortingStep.STEP_SORT_ACTUATE ∧
    exampleActuate.eggQualityIsGood = true ∧
    exampleActuate.weightClassificationIndex = classifyEgg (CFloat.finite 47) defaultRanges ∧
    (runContinuousSorting exampleTick exampleActuate).map (fun t => t.mg996r.angle)
      = some 125 :=
  ⟨rfl, rfl, rfl, (actuate_tick_angle exampleActuate exampleTick rfl).2.2 rfl rfl⟩

/-- C6. In phase WAIT_QUALITY the tick leaves the phase exactly when `stopRequested`
is set and the `unsigned long` difference between the tick time and the phase start is
at least 3000 ms; it then sets the verdict to BAD and the phase to ACTUATE.  In every
other case, in particular for any elapsed time when no stop is pending, the tick
changes nothing. -/
theorem wait_quality_tick_timeout (s : State) (inp : TickInput)
    (hphase : s.currentSortingStep = SortingStep.STEP_WAIT_FOR_QUALITY) :
    ∃ t, runContinuousSorting inp s = some t ∧
      (t.currentSortingStep ≠ SortingStep.STEP_WAIT_FOR_QUALITY ↔
        s.stopRequested = true ∧ 3000 ≤ ulongSub inp.millis s.stepStartTime) ∧
      (s.stopRequested = true ∧ 3000 ≤ ulongSub inp.millis s.stepStartTime →
        t = { s with eggQualityIsGood := false,
                     currentSortingStep := SortingStep.STEP_SORT_ACTUATE }) ∧
      (s.stopRequested = false → t = s) ∧
      (ulongSub inp.millis s.stepStartTime < 3000 → t = s) := by
  obtain ⟨sa, sr, pm, hc, rg, lt, st, w, q, wi, ph, sst, tw, ld, mg, ps, pw, pd, pe⟩ := s
  simp only at hphase
  subst hphase
  simp only [runContinuousSorting, QUALITY_WAIT_TIMEOUT_ON_STOP, ge_iff_le]
  by_cases hs : sr = true
  · by_cases ht : 3000 ≤ ulongSub inp.millis sst
    · simp [hs, ht]
    · simp [hs, ht]
  · simp [hs]

/-- Witness of C6 at `exampleWaiting`: no stop is pending, and a tick a million
milliseconds into the wait changes nothing. -/
theorem wait_quality_tick_timeout_witness :
    exampleWaiting.currentSortingStep = SortingStep.STEP_WAIT_FOR_QUALITY ∧
    3000 ≤ ulongSub 1000010 exampleWaiting.stepStartTime ∧
    runContinuousSorting { exampleTick with millis := 1000010 } exampleWaiting
      = some exampleWaiting :=
  ⟨rfl, by decide,
    match wait_quality_tick_timeout exampleWaiting { exampleTick with millis := 1000010 } rfl with
    | ⟨_, ht, _, _, hkeep, _⟩ => ht.trans (congrArg some (hkeep rfl))⟩

/-- C7. In phase DROP_WAIT with the system active, no steps outstanding and an
`unsigned long` difference of at least 2000 ms since the phase start: with a stop
pending the tick clears `stopRequested`, raises the enable line (motor disabled),
writes the loader to 160 and the diverter to 90, clears `systemActive` and makes the
phase IDLE; without one it only sets the phase to LOAD_DOWN. -/
theorem drop_wait_tick_boundary (s : State) (inp : TickInput)
    (hphase : s.currentSortingStep = SortingStep.STEP_EGG_DROP_WAIT)
    (hactive : s.systemActive = true) (hsteps : s.stepsRemainingInMove = 0)
    (helapsed : 2000 ≤ ulongSub inp.millis s.stepStartTime) :
    (s.stopRequested = true →
      runContinuousSorting inp s = some
        { s with
          stopRequested := false
          pinEnable := true
          loader := { angle := 160, writes := s.loader.writes + 1 }
          mg996r := { angle := 90, writes := s.mg996r.writes + 1 }
          systemActive := false
          currentSortingStep := SortingStep.STEP_IDLE }) ∧
    (s.stopRequested = false →
      runContinuousSorting inp s = some
        { s with currentSortingStep := SortingStep.STEP_LOAD_EGG_DOWN }) := by
  obtain ⟨sa, sr, pm, hc, rg, lt, st, w, q, wi, ph, sst, tw, ld, mg, ps, pw, pd, pe⟩ := s
  simp only at hphase hactive hsteps helapsed
  subst hphase hactive hsteps
  constructor
  · intro hs
    simp only at hs
    subst hs
    simp [runContinuousSorting, TIME_SORT_ACTUATE, helapsed, stopSystem, homeServo,
      Servo.write, LOADER_HOME_POS, MG996R_HOME_POS]
  · intro hs
    simp only at hs
    subst hs
    simp [runContinuousSorting, TIME_SORT_ACTUATE, helapsed]

/-- Witness of C7 at `exampleDropStop`, 2000 ms into the hold with a stop pending. -/
theorem drop_wait_tick_boundary_witness :
    exampleDropStop.currentSortingStep = SortingStep.STEP_EGG_DROP_WAIT ∧
    exampleDropStop.systemActive = true ∧ exampleDropStop.stepsRemainingInMove = 0 ∧
    2000 ≤ ulongSub 2100 exampleDropStop.stepStartTime ∧
    exampleDropStop.stopRequested = true ∧
    runContinuousSorting { exampleTick with millis := 2100 } exampleDropStop = some
      { exampleDropStop with
        stopRequested := false
        pinEnable := true
        loader := { angle := 160, writes := 4 }
        mg996r := { angle := 90, writes := 3 }
        systemActive := false
        currentSortingStep := SortingStep.STEP_IDLE } :=
  ⟨rfl, rfl, rfl, by decide, rfl,
    (drop_wait_tick_boundary exampleDropStop { exampleTick with millis := 2100 } rfl rfl rfl
      (by decide)).1 rfl⟩

/-- C8. From the MOVE_INIT tick of a state with the step line low, followed by `k` due
ticks (`k` at most 3200): the step line has been written `k` times, `stepsRemaining`
is `1600 - k / 2` and the line is high exactly when `k` is odd; so the counter is
positive up to 3199 toggles and is 0, with the line low, after 3200. -/
theorem move_counts_half_toggles (s : State) (inp0 : TickInput) (inps : List TickInput)
    (hphase : s.currentSortingStep = SortingStep.STEP_MOVE_TO_SCALE_INIT)
    (hlow : s.pinStep = false)
    (hdue : EveryTickToggles inp0.micros inps) (hlen : inps.length ≤ 3200) :
    ∃ t, runTicks (inp0 :: inps) s = some t ∧
      t.stepPinWrites = s.stepPinWrites + inps.length ∧
      t.stepsRemainingInMove = 1600 - ((inps.length / 2 : Nat) : Int) ∧
      (t.pinStep = true ↔ inps.length % 2 = 1) ∧
      (inps.length ≤ 3199 → 0 < t.stepsRemainingInMove) ∧
      (inps.length = 3200 → t.stepsRemainingInMove = 0 ∧ t.pinStep = false) := by
  simp only [runTicks, moveInit_tick s inp0 hphase, Option.some_bind]
  obtain ⟨t, ht, _, h2, h3, h4, _⟩ := runTicks_toggling inps
    { s with
      pinDir := true
      pinEnable := false
      stepsRemainingInMove := 1600
      lastStepTime := inp0.micros
      currentSortingStep := SortingStep.STEP_STEPPER_MOVING } rfl hdue
    (by simp only [hlow]; simp; omega)
  simp only [hlow, Bool.false_eq_true, if_false, Nat.add_zero, Bool.false_xor] at h3 h4
  refine ⟨t, ht, h2, h3, ?_, ?_, ?_⟩
  · rw [h4]; simp
  · intro h; rw [h3]; omega
  · intro h; rw [h3, h4, h]; simp

/-- Witness of C8: the move started at 0 microseconds and ticked every 800
microseconds reaches 0 steps at the 3200th toggle. -/
theorem move_counts_half_toggles_witness :
    exampleInit.currentSortingStep = SortingStep.STEP_MOVE_TO_SCALE_INIT ∧
    exampleInit.pinStep = false ∧
    EveryTickToggles (tickAt 0).micros (pulseTrain 0 3200) ∧
    (pulseTrain 0 3200).length ≤ 3200 ∧
    ∃ t, runTicks (tickAt 0 :: pulseTrain 0 3200) exampleInit = some t ∧
      t.stepPinWrites = 3200 ∧ t.stepsRemainingInMove = 0 ∧ t.pinStep = false := by
  have hlen := pulseTrain_length 0 3200
  obtain ⟨t, ht, hw, _, _, _, h0⟩ := move_counts_half_toggles exampleInit (tickAt 0)
    (pulseTrain 0 3200) rfl rfl (pulseTrain_due 0 3200) hlen.le
  refine ⟨rfl, rfl, pulseTrain_due 0 3200, hlen.le, t, ht, ?_, (h0 hlen).1, (h0 hlen).2⟩
  rw [hw, hlen]
  rfl

/-- C9, as stated, fails: in the run of a 1600-step move started at 0 microseconds and
ticked every 800 microseconds, the state right after the 3200th toggle has no steps
left and the enable line still low, that is, the motor still enabled. -/
theorem enable_still_low_after_last_toggle :
    (runTicks (tickAt 0 :: pulseTrain 0 3200) exampleInit).map
        (fun t => (t.stepPinWrites, t.stepsRemainingInMove, t.pinEnable))
      = some (3200, 0, false) := by
  have hlen := pulseTrain_length 0 3200
  have hinit := moveInit_tick exampleInit (tickAt 0) rfl
  obtain ⟨t, ht, _, h2, h3, _, h5⟩ := runTicks_toggling (pulseTrain 0 3200)
    { exampleInit with
      pinDir := true
      pinEnable := false
      stepsRemainingInMove := 1600
      lastStepTime := (tickAt 0).micros
      currentSortingStep := SortingStep.STEP_STEPPER_MOVING } rfl (pulseTrain_due 0 3200)
    (by rw [hlen]; decide)
  rw [runTicks_cons, hinit, Option.some_bind, ht, Option.map_some', h2, h3, h5, hlen]
  rfl

/-- C9, amended. After the MOVE_INIT tick of a state with the step line low and 3200
due ticks, no steps are left and the enable line is still low (motor enabled); the
next tick, whatever its time, raises the enable line (motor disabled), records its
time as the settle start and enters SETTLE. -/
theorem motor_disabled_by_tick_after_last_toggle (s : State) (inp0 next : TickInput)
    (inps : List TickInput)
    (hphase : s.currentSortingStep = SortingStep.STEP_MOVE_TO_SCALE_INIT)
    (hlow : s.pinStep = false)
    (hdue : EveryTickToggles inp0.micros inps) (hlen : inps.length = 3200) :
    ∃ t, runTicks (inp0 :: inps) s = some t ∧
      t.stepsRemainingInMove = 0 ∧ t.pinEnable = false ∧
      runContinuousSorting next t = some
        { t with
          pinEnable := true
          stepStartTime := next.millis
          currentSortingStep := SortingStep.STEP_WEIGH_WAIT } := by
  simp only [runTicks, moveInit_tick s inp0 hphase, Option.some_bind]
  obtain ⟨t, ht, h1, _, h3, _, h5⟩ := runTicks_toggling inps
    { s with
      pinDir := true
      pinEnable := false
      stepsRemainingInMove := 1600
      lastStepTime := inp0.micros
      currentSortingStep := SortingStep.STEP_STEPPER_MOVING } rfl hdue
    (by simp only [hlow]; simp; omega)
  simp only [hlow, Bool.false_eq_true, if_false, Nat.add_zero, hlen] at h3 h5
  have h0 : t.stepsRemainingInMove = 0 := by rw [h3]; rfl
  refine ⟨t, ht, h0, h5, ?_⟩
  obtain ⟨sa, sr, pm, hc, rg, lt, st, w, q, wi, ph, sst, tw, ld, mg, ps, pw, pd, pe⟩ := t
  simp only at h1 h0
  subst h1 h0
  simp [runContinuousSorting, stepperMoving]

/-- Witness of the amended C9 on the move started at 0 microseconds and ticked every
800 microseconds, with the next tick another 800 microseconds later. -/
theorem motor_disabled_by_tick_after_last_toggle_witness :
    exampleInit.currentSortingStep = SortingStep.STEP_MOVE_TO_SCALE_INIT ∧
    exampleInit.pinStep = false ∧
    EveryTickToggles (tickAt 0).micros (pulseTrain 0 3200) ∧
    (pulseTrain 0 3200).length = 3200 ∧
    ∃ t, runTicks (tickAt 0 :: pulseTrain 0 3200) exampleInit = some t ∧
      t.pinEnable = false ∧
      (runContinuousSorting (tickAt 2560800) t).map (fun u => u.pinEnable) = some true := by
  have hlen := pulseTrain_length 0 3200
  obtain ⟨t, ht, _, he, hnext⟩ := motor_disabled_by_tick_after_last_toggle exampleInit
    (tickAt 0) (tickAt 2560800) (pulseTrain 0 3200) rfl rfl (pulseTrain_due 0 3200) hlen
  exact ⟨rfl, rfl, pulseTrain_due 0 3200, hlen, t, ht, he, by rw [hnext]; rfl⟩

/-- C10. From the MOVE_INIT tick on, with tick times that do not decrease: the
MOVE_INIT tick itself leaves the step line as it is, and the ticks that change the
line afterwards are at least 800 microseconds apart, the first of them at least 800
microseconds after the MOVE_INIT tick; so each level of the line is held for at least
800 microseconds. -/
theorem step_line_levels_last_800 (s : State) (inp0 : TickInput) (inps : List TickInput)
    (hphase : s.currentSortingStep = SortingStep.STEP_MOVE_TO_SCALE_INIT)
    (hmono : List.Chain (fun a b => a ≤ b) inp0.micros (inps.map (fun i => i.micros))) :
    ∃ t0, runContinuousSorting inp0 s = some t0 ∧
      t0.pinStep = s.pinStep ∧ t0.stepPinWrites = s.stepPinWrites ∧
      List.Chain (fun a b => a + 800 ≤ b) inp0.micros (toggleTimes inps t0) := by
  refine ⟨_, moveInit_tick s inp0 hphase, rfl, rfl, ?_⟩
  exact toggleTimes_spaced inps _ inp0.micros (le_refl _) hmono

/-- Witness of C10 on `exampleTimes`: the step line changes at 800, 1700 and 5000
microseconds. -/
theorem step_line_levels_last_800_witness :
    exampleInit.currentSortingStep = SortingStep.STEP_MOVE_TO_SCALE_INIT ∧
    List.Chain (fun a b => a ≤ b) (tickAt 0).micros (exampleTimes.map (fun i => i.micros)) ∧
    ∃ t0, runContinuousSorting (tickAt 0) exampleInit = some t0 ∧
      toggleTimes exampleTimes t0 = [800, 1700, 5000] ∧
      List.Chain (fun a b => a + 800 ≤ b) 0 (toggleTimes exampleTimes t0) := by
  have hmono : List.Chain (fun a b => a ≤ b) (tickAt 0).micros
      (exampleTimes.map (fun i => i.micros)) := by
    simp [exampleTimes, tickAt]
  obtain ⟨t0, h0, _, _, hchain⟩ :=
    step_line_levels_last_800 exampleInit (tickAt 0) exampleTimes rfl hmono
  refine ⟨rfl, hmono, t0, h0, ?_, hchain⟩
  have h := (moveInit_tick exampleInit (tickAt 0) rfl).symm.trans h0
  cases h
  decide

/-- C11, as stated, fails for a weight that is not a number: under the default ranges,
which are ordered, a NaN weight is classified BAD although it is neither at most 0 nor
in one of the two gaps. -/
theorem classifyEgg_nan_is_bad_outside_gaps :
    defaultRanges.Ordered ∧
    classifyEgg CFloat.nan defaultRanges = BAD ∧
    ¬ (CFloat.nan.le (CFloat.finite 0) = true ∨
      (defaultRanges.smallMax.lt CFloat.nan = true ∧
        CFloat.nan.lt defaultRanges.mediumMin = true) ∨
      (defaultRanges.mediumMax.lt CFloat.nan = true ∧
        CFloat.nan.lt defaultRanges.largeMin = true)) := by
  refine ⟨by unfold RangeConfig.Ordered; decide, by decide, by decide⟩

/-- C11, amended. For every ordered range configuration and every weight that is a
number (not NaN): SMALL exactly when `0 < w <= smallMax`, MEDIUM exactly when
`mediumMin <= w <= mediumMax`, LARGE exactly when `w >= largeMin`, BAD exactly when
`w <= 0` or `smallMax < w < mediumMin` or `mediumMax < w < largeMin`.  A NaN weight is
BAD under every configuration.  With the default ranges 60 and 51 are LARGE, 42.5 is
BAD, 35 and 10 are SMALL. -/
theorem classifyEgg_ordered_ranges :
    (∀ (cfg : RangeConfig) (w : CFloat), cfg.Ordered → w ≠ CFloat.nan →
      (classifyEgg w cfg = SMALL ↔
        (CFloat.finite 0).lt w = true ∧ w.le cfg.smallMax = true) ∧
      (classifyEgg w cfg = MEDIUM ↔
        cfg.mediumMin.le w = true ∧ w.le cfg.mediumMax = true) ∧
      (classifyEgg w cfg = LARGE ↔ w.ge cfg.largeMin = true) ∧
      (classifyEgg w cfg = BAD ↔
        (w.le (CFloat.finite 0) = true ∨
          (cfg.smallMax.lt w = true ∧ w.lt cfg.mediumMin = true) ∨
          (cfg.mediumMax.lt w = true ∧ w.lt cfg.largeMin = true)))) ∧
    (∀ cfg : RangeConfig, classifyEgg CFloat.nan cfg = BAD) ∧
    classifyEgg (CFloat.finite 60) defaultRanges = LARGE ∧
    classifyEgg (CFloat.finite 51) defaultRanges = LARGE ∧
    classifyEgg (CFloat.finite (85 / 2)) defaultRanges = BAD ∧
    classifyEgg (CFloat.finite 35) defaultRanges = SMALL ∧
    classifyEgg (CFloat.finite 10) defaultRanges = SMALL := by
  refine ⟨?_, ?_, by decide, by decide, ?_, by decide, by decide⟩
  · rintro ⟨smin, smax, mmin, mmax, lmin, lmax⟩ w ⟨h1, h2, h3, h4, h5⟩ hw
    simp only at h1 h2 h3 h4 h5
    cases smin <;> simp [CFloat.lt] at h1
    all_goals (cases smax <;> simp [CFloat.le] at h2)
    all_goals (cases mmin <;> simp [CFloat.lt] at h3)
    all_goals (cases mmax <;> simp [CFloat.le] at h4)
    all_goals (cases lmin <;> simp [CFloat.lt] at h5)
    all_goals (cases w <;> simp at hw)
    all_goals simp [classifyEgg, CFloat.lt, CFloat.le, CFloat.ge, CFloat.gt, SMALL, MEDIUM, LARGE, BAD]
    · rename_i a b c d l q
      rcases lt_or_le q 0 with a1 | a1 <;> rcases lt_or_le 0 q with a2 | a2 <;>
      rcases lt_or_le q a with a3 | a3 <;> rcases lt_or_le b q with a4 | a4 <;>
      rcases lt_or_le q c with a5 | a5 <;> rcases lt_or_le d q with a6 | a6 <;>
      rcases lt_or_le q l with a7 | a7 <;>
      first
        | (exfalso; linarith)
        | simp [*, not_lt.mpr, not_le.mpr]
    · rename_i a b c d q
      rcases lt_or_le q 0 with a1 | a1 <;> rcases lt_or_le 0 q with a2 | a2 <;>
      rcases lt_or_le q a with a3 | a3 <;> rcases lt_or_le b q with a4 | a4 <;>
      rcases lt_or_le q c with a5 | a5 <;> rcases lt_or_le d q with a6 | a6 <;>
      first
        | (exfalso; linarith)
        | simp [*, not_lt.mpr, not_le.mpr]
  · intro cfg
    cases h : cfg.largeMin <;> cases h2 : cfg.mediumMin <;> cases h3 : cfg.smallMin <;>
      simp [classifyEgg, CFloat.lt, CFloat.le, CFloat.ge, CFloat.gt, BAD, h, h2, h3]
  · norm_num [classifyEgg, defaultRanges, CFloat.lt, CFloat.le, CFloat.ge, CFloat.gt, BAD]

/-- Witness of the amended C11 at 60 g under the default ranges. -/
theorem classifyEgg_ordered_ranges_witness :
    defaultRanges.Ordered ∧ CFloat.finite 60 ≠ CFloat.nan ∧
    (classifyEgg (CFloat.finite 60) defaultRanges = LARGE ↔
      (CFloat.finite 60).ge defaultRanges.largeMin = true) :=
  have ho : defaultRanges.Ordered := by unfold RangeConfig.Ordered; decide
  ⟨ho, by decide,
    (classifyEgg_ordered_ranges.1 defaultRanges (CFloat.finite 60) ho (by decide)).2.2.1⟩

/-- C12. Whenever a tick yields a state, its phase is the phase before the tick or one
of that phase's successors in the cycle graph; a tick in IDLE changes nothing; the
tick of MOVE_INIT ends in STEPPER_MOVING; and a tick yields a state in every phase,
in ACTUATE provided the verdict is not GOOD or the weight bin is in 0..3. -/
theorem tick_follows_cycle_graph (s : State) (inp : TickInput) :
    (∀ t, runContinuousSorting inp s = some t →
      t.currentSortingStep = s.currentSortingStep ∨
        t.currentSortingStep ∈ cycleSuccessors s.currentSortingStep) ∧
    (s.currentSortingStep = SortingStep.STEP_IDLE → runContinuousSorting inp s = some s) ∧
    (s.currentSortingStep = SortingStep.STEP_MOVE_TO_SCALE_INIT →
      ∃ t, runContinuousSorting inp s = some t ∧
        t.currentSortingStep = SortingStep.STEP_STEPPER_MOVING) ∧
    (s.currentSortingStep ≠ SortingStep.STEP_SORT_ACTUATE ∨ s.eggQualityIsGood = false ∨
        (0 ≤ s.weightClassificationIndex ∧ s.weightClassificationIndex ≤ 3) →
      ∃ t, runContinuousSorting inp s = some t) := by
  obtain ⟨sa, sr, pm, hc, rg, lt, st, w, q, wi, ph, sst, tw, ld, mg, ps, pw, pd, pe⟩ := s
  refine ⟨?_, ?_, ?_, ?_⟩
  · intro t ht
    cases ph
    case STEP_MOVE_TO_SCALE_INIT =>
      rw [moveInit_tick _ _ rfl] at ht
      cases ht
      simp [cycleSuccessors]
    all_goals
      simp only [runContinuousSorting, stepperMoving, weighRead, sortActuate, stopSystem,
        homeServo] at ht
    all_goals (try split_ifs at ht)
    all_goals (try split at ht)
    all_goals (try cases ht)
    all_goals simp [cycleSuccessors]
  · intro h
    simp only at h
    subst h
    rfl
  · intro h
    exact ⟨_, moveInit_tick _ inp h, rfl⟩
  · intro h
    cases ph
    case STEP_SORT_ACTUATE =>
      simp only [ne_eq, not_true_eq_false, false_or] at h
      simp only [runContinuousSorting, sortActuate]
      rcases h with h | ⟨h0, h3⟩
      · subst h
        simp [positionAt, MG996R_POSITIONS]
      · cases q
        · simp [positionAt, MG996R_POSITIONS]
        · have : wi = 0 ∨ wi = 1 ∨ wi = 2 ∨ wi = 3 := by omega
          rcases this with h | h | h | h <;> subst h <;>
            simp [positionAt, MG996R_POSITIONS]
    all_goals
      simp only [runContinuousSorting]
    all_goals (try split_ifs)
    all_goals exact ⟨_, rfl⟩

/-- Witness of C12 at `exampleInit`: its tick ends in STEPPER_MOVING. -/
theorem tick_follows_cycle_graph_witness :
    exampleInit.currentSortingStep = SortingStep.STEP_MOVE_TO_SCALE_INIT ∧
    ∃ t, runContinuousSorting exampleTick exampleInit = some t ∧
      t.currentSortingStep = SortingStep.STEP_STEPPER_MOVING :=
  ⟨rfl, (tick_follows_cycle_graph exampleInit exampleTick).2.2.1 rfl⟩

/-- C13. The waiting phases and their guards, all differences being `unsigned long`
differences to `stepStartTime`.  The LOAD_DOWN tick, the tick that completes a move
and the ACTUATE tick record their time in `stepStartTime`.  LOAD_UP is left exactly
when the difference is at least 1500 ms, to MOVE_INIT with the loader written to 160;
SETTLE exactly when it is at least 500 ms, to WEIGH; DROP_WAIT with no steps
outstanding, in every reachable state and more generally whenever the system is
active, exactly when it is at least 2000 ms; before the threshold the tick changes
nothing in these three phases.  STEPPER_MOVING is left exactly when the step counter
is not positive at the start of the tick, which in every reachable state and more
generally for a counter that is not negative means it is 0; the tick then raises the
enable line and enters SETTLE. -/
theorem waiting_phases_left_on_guard (s : State) (inp : TickInput) :
    (s.currentSortingStep = SortingStep.STEP_LOAD_EGG_DOWN →
      ∃ t, runContinuousSorting inp s = some t ∧ t.stepStartTime = inp.millis ∧
        t.currentSortingStep = SortingStep.STEP_LOAD_EGG_UP) ∧
    (s.currentSortingStep = SortingStep.STEP_SORT_ACTUATE →
      ∀ t, runContinuousSorting inp s = some t → t.stepStartTime = inp.millis ∧
        t.currentSortingStep = SortingStep.STEP_EGG_DROP_WAIT) ∧
    (s.currentSortingStep = SortingStep.STEP_LOAD_EGG_UP →
      ∃ t, runContinuousSorting inp s = some t ∧
        (t.currentSortingStep ≠ SortingStep.STEP_LOAD_EGG_UP ↔
          1500 ≤ ulongSub inp.millis s.stepStartTime) ∧
        (1500 ≤ ulongSub inp.millis s.stepStartTime →
          t = { s with
                loader := { angle := 160, writes := s.loader.writes + 1 }
                currentSortingStep := SortingStep.STEP_MOVE_TO_SCALE_INIT }) ∧
        (ulongSub inp.millis s.stepStartTime < 1500 → t = s)) ∧
    (s.currentSortingStep = SortingStep.STEP_WEIGH_WAIT →
      ∃ t, runContinuousSorting inp s = some t ∧
        (t.currentSortingStep ≠ SortingStep.STEP_WEIGH_WAIT ↔
          500 ≤ ulongSub inp.millis s.stepStartTime) ∧
        (500 ≤ ulongSub inp.millis s.stepStartTime →
          t = { s with currentSortingStep := SortingStep.STEP_WEIGH_READ }) ∧
        (ulongSub inp.millis s.stepStartTime < 500 → t = s)) ∧
    (s.currentSortingStep = SortingStep.STEP_EGG_DROP_WAIT →
      ∃ t, runContinuousSorting inp s = some t ∧
        (s.systemActive = true → s.stepsRemainingInMove = 0 →
          (t.currentSortingStep ≠ SortingStep.STEP_EGG_DROP_WAIT ↔
            2000 ≤ ulongSub inp.millis s.stepStartTime)) ∧
        (Reachable s → s.stepsRemainingInMove = 0 →
          (t.currentSortingStep ≠ SortingStep.STEP_EGG_DROP_WAIT ↔
            2000 ≤ ulongSub inp.millis s.stepStartTime)) ∧
        (ulongSub inp.millis s.stepStartTime < 2000 → t = s)) ∧
    (s.currentSortingStep = SortingStep.STEP_STEPPER_MOVING →
      ∃ t, runContinuousSorting inp s = some t ∧
        (t.currentSortingStep ≠ SortingStep.STEP_STEPPER_MOVING ↔
          ¬ 0 < s.stepsRemainingInMove) ∧
        (0 ≤ s.stepsRemainingInMove →
          (t.currentSortingStep ≠ SortingStep.STEP_STEPPER_MOVING ↔
            s.stepsRemainingInMove = 0)) ∧
        (Reachable s →
          (t.currentSortingStep ≠ SortingStep.STEP_STEPPER_MOVING ↔
            s.stepsRemainingInMove = 0)) ∧
        (¬ 0 < s.stepsRemainingInMove →
          t = { s with
                pinEnable := true
                stepStartTime := inp.millis
                currentSortingStep := SortingStep.STEP_WEIGH_WAIT })) := by
  have hnn := reachable_steps_nonneg s
  have hact := reachable_active_of_not_idle s
  obtain ⟨sa, sr, pm, hc, rg, lt, st, w, q, wi, ph, sst, tw, ld, mg, ps, pw, pd, pe⟩ := s
  simp only at hnn hact
  refine ⟨?_, ?_, ?_, ?_, ?_, ?_⟩
  · intro h
    simp only at h
    subst h
    exact ⟨_, rfl, rfl, rfl⟩
  · intro h t ht
    simp only at h
    subst h
    simp only [runContinuousSorting, sortActuate] at ht
    split at ht
    · cases ht
    · cases ht
      exact ⟨rfl, rfl⟩
  · intro h
    simp only at h
    subst h
    simp only [runContinuousSorting, TIME_SERVO_ACTUATE, ge_iff_le]
    by_cases hg : 1500 ≤ ulongSub inp.millis sst
    · simp [hg, Servo.write, LOADER_HOME_POS]
    · simp [hg]
  · intro h
    simp only at h
    subst h
    simp only [runContinuousSorting, TIME_SETTLE_VIBRATION, ge_iff_le]
    by_cases hg : 500 ≤ ulongSub inp.millis sst
    · simp [hg]
    · simp [hg]
  · intro h
    simp only at h
    subst h
    have key : ∃ t, runContinuousSorting inp
        { systemActive := sa, stopRequested := sr, plainMode := pm, hx711_calibrated := hc,
          ranges := rg, lastStepTime := lt, stepsRemainingInMove := st,
          currentEggWeight := w, eggQualityIsGood := q, weightClassificationIndex := wi,
          currentSortingStep := SortingStep.STEP_EGG_DROP_WAIT, stepStartTime := sst,
          testWeight := tw, loader := ld, mg996r := mg, pinStep := ps,
          stepPinWrites := pw, pinDir := pd, pinEnable := pe } = some t ∧
        (sa = true → st = 0 →
          (t.currentSortingStep ≠ SortingStep.STEP_EGG_DROP_WAIT ↔
            2000 ≤ ulongSub inp.millis sst)) ∧
        (ulongSub inp.millis sst < 2000 →
          t = { systemActive := sa, stopRequested := sr, plainMode := pm,
                hx711_calibrated := hc, ranges := rg, lastStepTime := lt,
                stepsRemainingInMove := st, currentEggWeight := w, eggQualityIsGood := q,
                weightClassificationIndex := wi,
                currentSortingStep := SortingStep.STEP_EGG_DROP_WAIT, stepStartTime := sst,
                testWeight := tw, loader := ld, mg996r := mg, pinStep := ps,
                stepPinWrites := pw, pinDir := pd, pinEnable := pe }) := by
      simp only [runContinuousSorting, TIME_SORT_ACTUATE, ge_iff_le, stopSystem, homeServo]
      by_cases hg : 2000 ≤ ulongSub inp.millis sst
      · cases sr <;> cases sa <;> simp [hg]
        all_goals (try split_ifs)
        all_goals simp
        all_goals omega
      · simp [hg]
    obtain ⟨t, ht, hA, hC⟩ := key
    exact ⟨t, ht, hA, fun hr => hA (hact hr (by simp)), hC⟩
  · intro h
    simp only at h
    subst h
    simp only [runContinuousSorting, stepperMoving, gt_iff_lt]
    by_cases hp : 0 < st
    · simp only [hp, if_true]
      refine ⟨_, rfl, ?_, ?_, ?_, ?_⟩
      · split_ifs <;> simp
      · intro _
        split_ifs <;> simp <;> omega
      · intro _
        split_ifs <;> simp <;> omega
      · simp
    · simp only [hp, if_false]
      refine ⟨_, rfl, by simp [hp], ?_, ?_, by simp⟩
      · intro h0
        simp
        omega
      · intro hr
        have := hnn hr
        simp
        omega

/-- Witness of C13 at `exampleLoadUp`: 1499 ms after the loader went down the tick
changes nothing, 1500 ms after it the loader is written to 160 and the phase is
MOVE_INIT. -/
theorem waiting_phases_left_on_guard_witness :
    exampleLoadUp.currentSortingStep = SortingStep.STEP_LOAD_EGG_UP ∧
    runContinuousSorting { exampleTick with millis := 1599 } exampleLoadUp
      = some exampleLoadUp ∧
    runContinuousSorting { exampleTick with millis := 1600 } exampleLoadUp
      = some { exampleLoadUp with
               loader := { angle := 160, writes := 3 }
               currentSortingStep := SortingStep.STEP_MOVE_TO_SCALE_INIT } := by
  obtain ⟨t, ht, _, _, hkeep⟩ :=
    (waiting_phases_left_on_guard exampleLoadUp { exampleTick with millis := 1599 }).2.2.1 rfl
  obtain ⟨u, hu, _, hgo, _⟩ :=
    (waiting_phases_left_on_guard exampleLoadUp { exampleTick with millis := 1600 }).2.2.1 rfl
  refine ⟨rfl, ?_, ?_⟩
  · rw [ht, hkeep (by decide)]
  · rw [hu, hgo (by decide)]
    rfl

/-- C14. In phase WEIGH the tick stores the bin `classifyEgg` gives for the weight it
stored, which is the sensor reading when the sensor is ready and calibrated.  With
`plainMode` set it sets the verdict GOOD and the phase ACTUATE, and the ACTUATE tick
that follows writes the table angle of that weight bin; with `plainMode` clear it
sets the verdict to not GOOD, restarts the phase timer at the tick time and enters
WAIT_QUALITY. -/
theorem weigh_tick_classifies (s : State) (inp : TickInput)
    (hphase : s.currentSortingStep = SortingStep.STEP_WEIGH_READ) :
    ∃ t, runContinuousSorting inp s = some t ∧
      t.weightClassificationIndex = classifyEgg t.currentEggWeight s.ranges ∧
      (inp.hxReady = true → s.hx711_calibrated = true →
        t.currentEggWeight = inp.hxUnits) ∧
      (s.plainMode = true →
        t.eggQualityIsGood = true ∧
        t.currentSortingStep = SortingStep.STEP_SORT_ACTUATE ∧
        ∀ next : TickInput, ∃ u a, runContinuousSorting next t = some u ∧
          ([15, 70, 125, 170] : List Int).get?
            (classifyEgg t.currentEggWeight s.ranges).toNat = some a ∧
          u.mg996r.angle = a ∧
          u.currentSortingStep = SortingStep.STEP_EGG_DROP_WAIT) ∧
      (s.plainMode = false →
        t.eggQualityIsGood = false ∧ t.stepStartTime = inp.millis ∧
        t.currentSortingStep = SortingStep.STEP_WAIT_FOR_QUALITY) := by
  have hrun : runContinuousSorting inp s = some (weighRead inp s) := by
    obtain ⟨sa, sr, pm, hc, rg, lt, st, w, q, wi, ph, sst, tw, ld, mg, ps, pw, pd, pe⟩ := s
    simp only at hphase
    subst hphase
    rfl
  have hbin : (weighRead inp s).weightClassificationIndex
      = classifyEgg (weighRead inp s).currentEggWeight s.ranges := by
    simp only [weighRead]
    split_ifs <;> rfl
  refine ⟨weighRead inp s, hrun, hbin, ?_, ?_, ?_⟩
  · intro h1 h2
    simp [weighRead, h1, h2]
    split_ifs <;> rfl
  · intro hp
    have hq : (weighRead inp s).eggQualityIsGood = true := by
      simp only [weighRead]
      split_ifs <;> simp_all
    have hph : (weighRead inp s).currentSortingStep = SortingStep.STEP_SORT_ACTUATE := by
      simp only [weighRead]
      split_ifs <;> simp_all
    exact ⟨hq, hph, fun next => actuate_good_uses_bin _ next _ _ hph hq hbin⟩
  · intro hp
    simp only [weighRead]
    split_ifs <;> simp_all

/-- Witness of C14 at `exampleWeigh` (normal mode) with a ready sensor reading 47 g:
the bin is MEDIUM and the cycle waits for the verdict. -/
theorem weigh_tick_classifies_witness :
    exampleWeigh.currentSortingStep = SortingStep.STEP_WEIGH_READ ∧
    exampleWeigh.plainMode = false ∧
    ∃ t, runContinuousSorting exampleWeighTick exampleWeigh = some t ∧
      t.currentEggWeight = CFloat.finite 47 ∧
      t.weightClassificationIndex = classifyEgg t.currentEggWeight exampleWeigh.ranges ∧
      t.eggQualityIsGood = false ∧ t.stepStartTime = 700 ∧
      t.currentSortingStep = SortingStep.STEP_WAIT_FOR_QUALITY := by
  obtain ⟨t, ht, hbin, hw, _, hgate⟩ := weigh_tick_classifies exampleWeigh exampleWeighTick rfl
  exact ⟨rfl, rfl, t, ht, hw rfl rfl, hbin, (hgate rfl).1, (hgate rfl).2.1, (hgate rfl).2.2⟩

/-- C15. A STOP command received while the system is active sets `stopRequested` and
changes no other variable and no output; received while the system is not active it
changes nothing. -/
theorem stop_command_only_latches (now : Nat) (s : State) :
    (s.systemActive = true →
      handleCommand now Command.STOP s = { s with stopRequested := true }) ∧
    (s.systemActive = false → handleCommand now Command.STOP s = s) := by
  constructor <;> intro h <;> simp [handleCommand, h]

/-- Witness of C15: STOP during the move of `exampleMoving` latches the flag and
leaves the counter, the lines and the servos alone; STOP in the initial, inactive
state changes nothing. -/
theorem stop_command_only_latches_witness :
    exampleMoving.systemActive = true ∧
    handleCommand 7 Command.STOP exampleMoving = { exampleMoving with stopRequested := true } ∧
    (initialState true).systemActive = false ∧
    handleCommand 7 Command.STOP (initialState true) = initialState true :=
  ⟨rfl, (stop_command_only_latches 7 exampleMoving).1 rfl, rfl,
    (stop_command_only_latches 7 (initialState true)).2 rfl⟩

/-- C16. If a step of the system (a command or a tick of `loop()`) finds
`stopRequested` set and leaves it clear, the step is a tick in phase DROP_WAIT of an
active system, taken with an `unsigned long` difference of at least 2000 ms to the
phase start and with a step counter that is not positive, hence 0 in every reachable
state.  So no command and no tick of another phase clears the flag. -/
theorem stop_flag_cleared_only_at_drop_wait (e : Event) (s t : State)
    (hstep : systemStep e s = some t)
    (hset : s.stopRequested = true) (hclear : t.stopRequested = false) :
    ∃ inp, e = Event.tick inp ∧ s.systemActive = true ∧
      s.currentSortingStep = SortingStep.STEP_EGG_DROP_WAIT ∧
      2000 ≤ ulongSub inp.millis s.stepStartTime ∧
      s.stepsRemainingInMove ≤ 0 ∧
      (Reachable s → s.stepsRemainingInMove = 0) := by
  have hnn := reachable_steps_nonneg s
  obtain ⟨sa, sr, pm, hc, rg, lt, st, w, q, wi, ph, sst, tw, ld, mg, ps, pw, pd, pe⟩ := s
  simp only at hset hnn
  subst hset
  cases e with
  | command now c =>
    exfalso
    simp only [systemStep, Option.some.injEq] at hstep
    subst hstep
    cases c with
    | START args =>
      cases args <;> cases sa <;> simp [handleCommand, startSystem, applyRanges] at hclear
    | START_PLAIN args =>
      cases args <;> cases sa <;> simp [handleCommand, startSystem, applyRanges] at hclear
    | STOP => cases sa <;> simp [handleCommand] at hclear
    | HOME => simp [handleCommand, homeServo] at hclear
    | STATUS => simp [handleCommand] at hclear
    | QUALITY arg =>
      cases arg <;> simp only [handleCommand] at hclear <;> split_ifs at hclear
    | SET_RANGES args => cases args <;> simp [handleCommand, applyRanges] at hclear
    | RUN => cases sa <;> simp [handleCommand, startSystem] at hclear
    | unknown => simp [handleCommand] at hclear
    | CALIBRATE_HX711 ready => cases ready <;> simp [handleCommand, calibrateHX711] at hclear
    | CALIBRATE_UNO => simp [handleCommand, calibrateUno_eq] at hclear
    | CALIBRATE_NEMA23 => simp [handleCommand, calibrateNema23_eq] at hclear
    | CALIBRATE_LOADER => simp [handleCommand, calibrateLoaderServo] at hclear
    | CALIBRATE_MG996R => simp [handleCommand, calibrateMG996R] at hclear
  | tick inp =>
    refine ⟨inp, rfl, ?_⟩
    simp only [systemStep, loopTick] at hstep
    cases sa
    · simp only [Bool.false_eq_true, if_false, Option.some.injEq] at hstep
      subst hstep
      simp at hclear
    · simp only [if_true] at hstep
      cases ph
      case STEP_MOVE_TO_SCALE_INIT =>
        rw [moveInit_tick _ _ rfl] at hstep
        cases hstep
        simp at hclear
      case STEP_EGG_DROP_WAIT =>
        simp only [runContinuousSorting, stopSystem, homeServo, TIME_SORT_ACTUATE,
          ge_iff_le] at hstep
        by_cases hg : 2000 ≤ ulongSub inp.millis sst
        · by_cases hp : 0 < st
          · simp [hg, hp] at hstep
            subst hstep
            simp at hclear
          · refine ⟨rfl, rfl, hg, ?_, fun hr => ?_⟩
            · show st ≤ 0
              omega
            · have := hnn hr
              show st = 0
              omega
        · simp [hg] at hstep
          subst hstep
          simp at hclear
      all_goals
        simp only [runContinuousSorting, stepperMoving, weighRead, sortActuate] at hstep
      all_goals (try split_ifs at hstep)
      all_goals (try split at hstep)
      all_goals (try cases hstep)
      all_goals simp at hclear

/-- Witness of C16 at `exampleDropStop`: the tick 2000 ms into the hold clears the
flag. -/
theorem stop_flag_cleared_only_at_drop_wait_witness :
    exampleDropStop.stopRequested = true ∧
    ∃ t, systemStep (Event.tick { exampleTick with millis := 2100 }) exampleDropStop = some t ∧
      t.stopRequested = false ∧
      exampleDropStop.currentSortingStep = SortingStep.STEP_EGG_DROP_WAIT ∧
      exampleDropStop.stepsRemainingInMove ≤ 0 := by
  have hstep : systemStep (Event.tick { exampleTick with millis := 2100 }) exampleDropStop
      = some (stopSystem { exampleDropStop with stopRequested := false }) := by decide
  obtain ⟨_, _, _, hph, _, h0, _⟩ := stop_flag_cleared_only_at_drop_wait _ _ _ hstep rfl rfl
  exact ⟨rfl, _, hstep, rfl, hph, h0⟩

/-- C17. For SET_RANGES, START and START_PLAIN the range configuration after the
command is the six scanned values when `sscanf` converted all six, and the
configuration before the command otherwise; SET_RANGES with fewer than six converted
numbers leaves the whole state unchanged. -/
theorem ranges_all_or_nothing (now : Nat) (r : ScanResult) (s : State) :
    (handleCommand now (Command.SET_RANGES r.args) s).ranges
      = (if r.count = 6 then r.values else s.ranges) ∧
    (handleCommand now (Command.START r.args) s).ranges
      = (if r.count = 6 then r.values else s.ranges) ∧
    (handleCommand now (Command.START_PLAIN r.args) s).ranges
      = (if r.count = 6 then r.values else s.ranges) ∧
    (r.count ≠ 6 → handleCommand now (Command.SET_RANGES r.args) s = s) := by
  obtain ⟨sa, sr, pm, hc, rg, lt, st, w, q, wi, ph, sst, tw, ld, mg, ps, pw, pd, pe⟩ := s
  by_cases h : r.count = 6
  · cases sa <;> simp [handleCommand, startSystem, applyRanges, ScanResult.args, h]
  · cases sa <;> simp [handleCommand, startSystem, applyRanges, ScanResult.args, h]

/-- Witness of C17: a SET_RANGES line of which only three numbers convert leaves the
state of `exampleMoving` unchanged. -/
theorem ranges_all_or_nothing_witness :
    exampleScan.count ≠ 6 ∧
    handleCommand 9 (Command.SET_RANGES exampleScan.args) exampleMoving = exampleMoving :=
  ⟨by decide, (ranges_all_or_nothing 9 exampleScan exampleMoving).2.2.2 (by decide)⟩

/-- C18 at a failing input: in `examplePlain` the system is active in plain mode; a
START without range arguments clears `plainMode`, so the state changes, while the RUN
command, which only calls `startSystem`, leaves the state as it is. -/
theorem start_while_active_overwrites_plainMode :
    examplePlain.systemActive = true ∧ examplePlain.plainMode = true ∧
    handleCommand 5 (Command.START none) examplePlain
      = { examplePlain with plainMode := false } ∧
    handleCommand 5 (Command.START none) examplePlain ≠ examplePlain ∧
    handleCommand 5 (Command.START_PLAIN none) exampleMoving
      = { exampleMoving with plainMode := true } ∧
    handleCommand 5 Command.RUN examplePlain = examplePlain := by
  refine ⟨rfl, rfl, rfl, by decide, rfl, rfl⟩

/-- C20. A tick outside phase ACTUATE always yields a state, and it leaves the
diverter (angle and number of writes) unchanged unless it is the DROP_WAIT tick that
performs the stop, which ends in IDLE; in particular the DROP_WAIT tick that restarts
the cycle at LOAD_DOWN leaves the diverter unchanged.  Whenever a tick changes the
diverter, the phase was ACTUATE or it was that stopping DROP_WAIT tick. -/
theorem diverter_written_only_by_actuate_or_stop (s : State) (inp : TickInput) :
    (s.currentSortingStep ≠ SortingStep.STEP_SORT_ACTUATE →
      ∃ t, runContinuousSorting inp s = some t ∧
        (t.mg996r = s.mg996r ∨
          (s.currentSortingStep = SortingStep.STEP_EGG_DROP_WAIT ∧
            s.stopRequested = true ∧
            2000 ≤ ulongSub inp.millis s.stepStartTime ∧
            t.currentSortingStep = SortingStep.STEP_IDLE)) ∧
        (t.currentSortingStep = SortingStep.STEP_LOAD_EGG_DOWN → t.mg996r = s.mg996r)) ∧
    (∀ t, runContinuousSorting inp s = some t → t.mg996r ≠ s.mg996r →
      s.currentSortingStep = SortingStep.STEP_SORT_ACTUATE ∨
        (s.currentSortingStep = SortingStep.STEP_EGG_DROP_WAIT ∧
          s.stopRequested = true ∧ t.currentSortingStep = SortingStep.STEP_IDLE)) := by
  obtain ⟨sa, sr, pm, hc, rg, lt, st, w, q, wi, ph, sst, tw, ld, mg, ps, pw, pd, pe⟩ := s
  constructor
  · intro hph
    cases ph
    case STEP_SORT_ACTUATE => exact absurd rfl hph
    case STEP_MOVE_TO_SCALE_INIT =>
      exact ⟨_, moveInit_tick _ _ rfl, Or.inl rfl, fun _ => rfl⟩
    all_goals
      simp only [runContinuousSorting, stepperMoving, weighRead, stopSystem, homeServo,
        TIME_SORT_ACTUATE, ge_iff_le]
    all_goals (try split_ifs)
    all_goals (refine ⟨_, rfl, ?_, ?_⟩)
    all_goals simp_all
  · intro t ht hne
    cases ph
    case STEP_MOVE_TO_SCALE_INIT =>
      rw [moveInit_tick _ _ rfl] at ht
      cases ht
      simp at hne
    all_goals
      simp only [runContinuousSorting, stepperMoving, weighRead, sortActuate, stopSystem,
        homeServo] at ht
    all_goals (try split_ifs at ht)
    all_goals (try split at ht)
    all_goals (try cases ht)
    all_goals simp_all

/-- Witness of C20 at `exampleDropStop` without the pending stop: the tick 2000 ms
into the hold restarts the cycle and the diverter stays at 125. -/
theorem diverter_written_only_by_actuate_or_stop_witness :
    exampleDropStop.currentSortingStep ≠ SortingStep.STEP_SORT_ACTUATE ∧
    ∃ t, runContinuousSorting { exampleTick with millis := 2100 }
        { exampleDropStop with stopRequested := false } = some t ∧
      t.currentSortingStep = SortingStep.STEP_LOAD_EGG_DOWN ∧
      t.mg996r = { angle := 125, writes := 2 } := by
  obtain ⟨t, ht, _, hkeep⟩ := (diverter_written_only_by_actuate_or_stop
    { exampleDropStop with stopRequested := false } { exampleTick with millis := 2100 }).1
    (by decide)
  have hrun : runContinuousSorting { exampleTick with millis := 2100 }
      { exampleDropStop with stopRequested := false }
      = some { exampleDropStop with
               stopRequested := false
               currentSortingStep := SortingStep.STEP_LOAD_EGG_DOWN } := by decide
  have ht2 := hrun.symm.trans ht
  cases ht2
  exact ⟨by decide, _, hrun, rfl, hkeep rfl⟩

/-- C21. In phase WEIGH the tick stores the sensor reading, and leaves the synthetic
test weight as it is, when the sensor is ready and the load cell calibrated; in every
other case it advances the test weight and stores it.  The test weight advances in the
cycle 47, 72, 97, ..., 347, 47 (from `47 + 25 k` to `47 + 25 ((k + 1) mod 13)`), and
in every reachable state it and its successor are of the form `47 + 25 k` with `k`
from 0 to 12, hence positive and at most 350. -/
theorem weigh_tick_weight_source (s : State) (inp : TickInput)
    (hphase : s.currentSortingStep = SortingStep.STEP_WEIGH_READ) :
    ∃ t, runContinuousSorting inp s = some t ∧
      (inp.hxReady = true ∧ s.hx711_calibrated = true →
        t.currentEggWeight = inp.hxUnits ∧ t.testWeight = s.testWeight) ∧
      (¬ (inp.hxReady = true ∧ s.hx711_calibrated = true) →
        t.currentEggWeight = nextTestWeight s.testWeight ∧
        t.testWeight = nextTestWeight s.testWeight) ∧
      (∀ k : Nat, k ≤ 12 → s.testWeight = CFloat.finite (47 + 25 * (k : ℚ)) →
        nextTestWeight s.testWeight
          = CFloat.finite (47 + 25 * (((k + 1) % 13 : Nat) : ℚ))) ∧
      (Reachable s →
        IsTestWeight s.testWeight ∧ IsTestWeight (nextTestWeight s.testWeight) ∧
        (CFloat.finite 0).lt (nextTestWeight s.testWeight) = true ∧
        (nextTestWeight s.testWeight).le (CFloat.finite 350) = true) := by
  have hrun : runContinuousSorting inp s = some (weighRead inp s) := by
    obtain ⟨sa, sr, pm, hc, rg, lt, st, w, q, wi, ph, sst, tw, ld, mg, ps, pw, pd, pe⟩ := s
    simp only at hphase
    subst hphase
    rfl
  refine ⟨_, hrun, ?_, ?_, ?_, ?_⟩
  · rintro ⟨h1, h2⟩
    have h := weighRead_measured inp s (by simp [h1, h2])
    exact ⟨h.2, h.1⟩
  · intro hn
    have h := weighRead_degraded inp s (by
      cases h1 : inp.hxReady <;> cases h2 : s.hx711_calibrated <;> simp_all)
    exact ⟨h.2, h.1⟩
  · intro k hk hw
    rw [hw]
    exact nextTestWeight_cycle k hk
  · intro hr
    have h1 := reachable_testWeight s hr
    have h2 := nextTestWeight_isTestWeight _ h1
    exact ⟨h1, h2, isTestWeight_bounds _ h2⟩

/-- Witness of C21 at `exampleWeigh` with a sensor that is not ready: the first
synthetic weight, 72, is stored; and the first fourteen synthetic weights. -/
theorem weigh_tick_weight_source_witness :
    exampleWeigh.currentSortingStep = SortingStep.STEP_WEIGH_READ ∧
    ¬ (exampleTick.hxReady = true ∧ exampleWeigh.hx711_calibrated = true) ∧
    (∃ t, runContinuousSorting exampleTick exampleWeigh = some t ∧
      t.currentEggWeight = CFloat.finite 72 ∧ t.testWeight = CFloat.finite 72) ∧
    (List.range 14).map (fun n => nextTestWeight^[n + 1] (CFloat.finite 47))
      = [CFloat.finite 72, CFloat.finite 97, CFloat.finite 122, CFloat.finite 147,
         CFloat.finite 172, CFloat.finite 197, CFloat.finite 222, CFloat.finite 247,
         CFloat.finite 272, CFloat.finite 297, CFloat.finite 322, CFloat.finite 347,
         CFloat.finite 47, CFloat.finite 72] := by
  have hn : ¬ (exampleTick.hxReady = true ∧ exampleWeigh.hx711_calibrated = true) := by
    decide
  obtain ⟨t, ht, _, hdeg, _, _⟩ := weigh_tick_weight_source exampleWeigh exampleTick rfl
  have h72 : nextTestWeight exampleWeigh.testWeight = CFloat.finite 72 := by
    norm_num [nextTestWeight, CFloat.add, CFloat.gt, CFloat.lt, exampleWeigh, initialState]
  refine ⟨rfl, hn, ⟨t, ht, ?_, ?_⟩, ?_⟩
  · rw [(hdeg hn).1, h72]
  · rw [(hdeg hn).2, h72]
  · norm_num [List.range_succ, Function.iterate_succ_apply', nextTestWeight, CFloat.add,
      CFloat.gt, CFloat.lt]

/-- C22. In every reachable state the step counter lies between 0 and 1600 and is
positive only in phase STEPPER_MOVING; so it is 0 in phase MOVE_INIT, and the
DROP_WAIT tick with a stop pending and at least 2000 ms elapsed performs the stop at
once: motor disabled, system inactive, phase IDLE, flag cleared. -/
theorem reachable_step_counter (s : State) (hr : Reachable s) :
    0 ≤ s.stepsRemainingInMove ∧ s.stepsRemainingInMove ≤ 1600 ∧
    (0 < s.stepsRemainingInMove →
      s.currentSortingStep = SortingStep.STEP_STEPPER_MOVING) ∧
    (s.currentSortingStep = SortingStep.STEP_MOVE_TO_SCALE_INIT →
      s.stepsRemainingInMove = 0) ∧
    (∀ inp : TickInput, s.currentSortingStep = SortingStep.STEP_EGG_DROP_WAIT →
      s.stopRequested = true → 2000 ≤ ulongSub inp.millis s.stepStartTime →
      ∃ t, systemStep (Event.tick inp) s = some t ∧
        t.currentSortingStep = SortingStep.STEP_IDLE ∧ t.systemActive = false ∧
        t.pinEnable = true ∧ t.stopRequested = false) := by
  obtain ⟨h1, h2, h3, h4, h5⟩ := reachable_controlInv s hr
  refine ⟨h1, h2, h3, ?_, ?_⟩
  · intro hph
    by_contra hne
    have := h3 (by omega)
    rw [hph] at this
    cases this
  · intro inp hph hstop hel
    have hact : s.systemActive = true := h5 hstop
    have h0 : ¬ 0 < s.stepsRemainingInMove := by
      intro hpos
      have := h3 hpos
      rw [hph] at this
      cases this
    obtain ⟨sa, sr, pm, hc, rg, lt, st, w, q, wi, ph, sst, tw, ld, mg, ps, pw, pd, pe⟩ := s
    simp only at hph hstop hel hact h0
    subst hph hstop hact
    simp [systemStep, loopTick, runContinuousSorting, TIME_SORT_ACTUATE, hel, stopSystem,
      homeServo, h0]

/-- Witness of C22 at the reachable state `exampleStarted`: 1600 steps left, in phase
STEPPER_MOVING. -/
theorem reachable_step_counter_witness :
    Reachable exampleStarted ∧ 0 < exampleStarted.stepsRemainingInMove ∧
    exampleStarted.stepsRemainingInMove ≤ 1600 ∧
    exampleStarted.currentSortingStep = SortingStep.STEP_STEPPER_MOVING :=
  have h := reachable_step_counter exampleStarted exampleStarted_reachable
  ⟨exampleStarted_reachable, by decide, h.2.1, h.2.2.1 (by decide)⟩

/-- C23. In every reachable state the system is active exactly when the phase is not
IDLE. -/
theorem reachable_active_iff_not_idle (s : State) (hr : Reachable s) :
    s.systemActive = true ↔ s.currentSortingStep ≠ SortingStep.STEP_IDLE :=
  (reachable_controlInv s hr).2.2.2.1

/-- Witness of C23 at the reachable states `exampleStarted` (active, moving) and
`initialState true` (inactive, idle). -/
theorem reachable_active_iff_not_idle_witness :
    Reachable exampleStarted ∧
    (exampleStarted.systemActive = true ↔
      exampleStarted.currentSortingStep ≠ SortingStep.STEP_IDLE) ∧
    exampleStarted.systemActive = true ∧
    Reachable (initialState true) ∧
    ((initialState true).systemActive = true ↔
      (initialState true).currentSortingStep ≠ SortingStep.STEP_IDLE) ∧
    (initialState true).systemActive = false :=
  ⟨exampleStarted_reachable,
    reachable_active_iff_not_idle exampleStarted exampleStarted_reachable, rfl,
    Reachable.init true,
    reachable_active_iff_not_idle (initialState true) (Reachable.init true), rfl⟩

/-- C24. In every reachable state a set `stopRequested` implies an active system; so
in a reachable state with the system inactive the flag is clear, and a START or
START_PLAIN command then gives an active system with the flag clear. -/
theorem reachable_stop_implies_active (s : State) (hr : Reachable s) :
    (s.stopRequested = true → s.systemActive = true) ∧
    (s.systemActive = false →
      s.stopRequested = false ∧
      ∀ (now : Nat) (args : Option RangeConfig),
        (handleCommand now (Command.START args) s).systemActive = true ∧
        (handleCommand now (Command.START args) s).stopRequested = false ∧
        (handleCommand now (Command.START_PLAIN args) s).systemActive = true ∧
        (handleCommand now (Command.START_PLAIN args) s).stopRequested = false) := by
  obtain ⟨_, _, _, _, h5⟩ := reachable_controlInv s hr
  refine ⟨h5, fun hin => ?_⟩
  have hclear : s.stopRequested = false := by
    cases hs : s.stopRequested
    · rfl
    · rw [h5 hs] at hin
      cases hin
  refine ⟨hclear, fun now args => ?_⟩
  obtain ⟨sa, sr, pm, hc, rg, lt, st, w, q, wi, ph, sst, tw, ld, mg, ps, pw, pd, pe⟩ := s
  simp only at hin hclear
  subst hin hclear
  cases args <;> simp [handleCommand, startSystem, applyRanges]

/-- Witness of C24 at the reachable state `exampleStarted`, where a stop is latched
and the system is active. -/
theorem reachable_stop_implies_active_witness :
    Reachable exampleStarted ∧ exampleStarted.stopRequested = true ∧
    exampleStarted.systemActive = true :=
  ⟨exampleStarted_reachable, rfl,
    (reachable_stop_implies_active exampleStarted exampleStarted_reachable).1 rfl⟩

/-- C25. The classifier returns an index in 0..3 for every weight and every range
configuration; in every reachable state the stored weight bin is 0 or a value the
classifier returned, hence in 0..3; and in every reachable state of phase ACTUATE the
final bin index is in 0..3, the read of the four-entry angle table is in bounds and
the tick writes the angle read. -/
theorem bin_index_within_table :
    (∀ (w : CFloat) (r : RangeConfig), 0 ≤ classifyEgg w r ∧ classifyEgg w r ≤ 3) ∧
    (∀ s : State, Reachable s →
      (s.weightClassificationIndex = 0 ∨
        ∃ (w : CFloat) (r : RangeConfig), s.weightClassificationIndex = classifyEgg w r) ∧
      0 ≤ s.weightClassificationIndex ∧ s.weightClassificationIndex ≤ 3) ∧
    (∀ (s : State) (inp : TickInput), Reachable s →
      s.currentSortingStep = SortingStep.STEP_SORT_ACTUATE →
      ∃ (i a : Int) (t : State),
        i = (if !s.eggQualityIsGood || s.weightClassificationIndex == 0 then 0
             else s.weightClassificationIndex) ∧
        0 ≤ i ∧ i ≤ 3 ∧ positionAt i = some a ∧
        runContinuousSorting inp s = some t ∧ t.mg996r.angle = a) := by
  have hc : ∀ (w : CFloat) (r : RangeConfig), 0 ≤ classifyEgg w r ∧ classifyEgg w r ≤ 3 := by
    intro w r
    rcases classifyEgg_cases w r with h | h | h | h <;> rw [h] <;> decide
  have hidx : ∀ s : State, Reachable s →
      0 ≤ s.weightClassificationIndex ∧ s.weightClassificationIndex ≤ 3 := by
    intro s hr
    rcases reachable_index s hr with h | ⟨w, r, h⟩
    · rw [h]; decide
    · rw [h]; exact hc w r
  refine ⟨hc, fun s hr => ⟨reachable_index s hr, hidx s hr⟩, fun s inp hr hph => ?_⟩
  exact actuate_in_bounds s inp hph (hidx s hr).1 (hidx s hr).2

/-- Witness of C25 at the reachable state `exampleStarted`. -/
theorem bin_index_within_table_witness :
    Reachable exampleStarted ∧
    0 ≤ exampleStarted.weightClassificationIndex ∧
    exampleStarted.weightClassificationIndex ≤ 3 :=
  ⟨exampleStarted_reachable,
    (bin_index_within_table.2.1 exampleStarted exampleStarted_reachable).2⟩

/-- C26. Under an ordered range configuration, of two weights `w1 <= w2` that both
get a size (not BAD) the heavier never gets the smaller size.  Under the configuration
`exampleUnordered`, which is not ordered, 42 g is MEDIUM and the heavier 55 g is
SMALL. -/
theorem classifyEgg_monotone_on_sizes :
    (∀ (cfg : RangeConfig) (w1 w2 : CFloat), cfg.Ordered → w1.le w2 = true →
      classifyEgg w1 cfg ≠ BAD → classifyEgg w2 cfg ≠ BAD →
      classifyEgg w1 cfg ≤ classifyEgg w2 cfg) ∧
    (¬ exampleUnordered.Ordered ∧
      (CFloat.finite 42).le (CFloat.finite 55) = true ∧
      classifyEgg (CFloat.finite 42) exampleUnordered = MEDIUM ∧
      classifyEgg (CFloat.finite 55) exampleUnordered = SMALL) := by
  constructor
  · intro cfg w1 w2 hord hle hb1 hb2
    obtain ⟨_, ho2, ho3, _, _⟩ := hord
    simp only [BAD] at hb1 hb2
    rcases classifyEgg_cases w1 cfg with h1 | h1 | h1 | h1
    · exact absurd h1 hb1
    · rcases classifyEgg_cases w2 cfg with h2 | h2 | h2 | h2
      · exact absurd h2 hb2
      all_goals (rw [h1, h2] <;> decide)
    · rcases classifyEgg_cases w2 cfg with h2 | h2 | h2 | h2
      · exact absurd h2 hb2
      · exfalso
        obtain ⟨hm, _⟩ := classifyEgg_medium_inv w1 cfg h1
        have hmw2 := cfloat_le_trans hm hle
        have hlt : cfg.mediumMin.lt cfg.mediumMin = true := by
          rcases classifyEgg_small_inv w2 cfg h2 with hs | hs
          · exact cfloat_le_lt_trans (cfloat_le_trans hmw2 hs) ho3
          · exact cfloat_lt_trans
              (cfloat_lt_le_trans (cfloat_le_lt_trans hmw2 hs) ho2) ho3
        rw [cfloat_lt_irrefl] at hlt
        cases hlt
      all_goals (rw [h1, h2] <;> decide)
    · have hl := cfloat_le_trans (classifyEgg_large_inv w1 cfg h1) hle
      rcases classifyEgg_of_large w2 cfg hl with h2 | h2
      · exact absurd h2 hb2
      · rw [h1, h2]
  · refine ⟨?_, by decide, by decide, by decide⟩
    unfold RangeConfig.Ordered
    decide

/-- Witness of C26 under the default ranges: 40 g (SMALL) and 47 g (MEDIUM). -/
theorem classifyEgg_monotone_on_sizes_witness :
    defaultRanges.Ordered ∧ (CFloat.finite 40).le (CFloat.finite 47) = true ∧
    classifyEgg (CFloat.finite 40) defaultRanges ≠ BAD ∧
    classifyEgg (CFloat.finite 47) defaultRanges ≠ BAD ∧
    classifyEgg (CFloat.finite 40) defaultRanges ≤ classifyEgg (CFloat.finite 47) defaultRanges :=
  have ho : defaultRanges.Ordered := by unfold RangeConfig.Ordered; decide
  ⟨ho, by decide, by decide, by decide,
    classifyEgg_monotone_on_sizes.1 defaultRanges (CFloat.finite 40) (CFloat.finite 47) ho
      (by decide) (by decide) (by decide)⟩

/-- C27. The guards of the sort cycle compare `unsigned long` differences, which are
the true elapsed time across a wrap of the counter.  For every start and every elapsed
time `e` below `2 ^ 32` the difference of `(start + e) mod 2 ^ 32` and `start` is `e`.
So for a tick at `(start + e) mod 2 ^ 32`, where `start` is the stored `lastStepTime`
(step pulse) or `stepStartTime` (the other four): in STEPPER_MOVING with steps
outstanding the step line is toggled exactly when `e` is at least 800; LOAD_UP is
left exactly when `e` is at least 1500; SETTLE exactly when `e` is at least 500;
WAIT_QUALITY with a stop pending exactly when `e` is at least 3000; DROP_WAIT restarts
the cycle (no stop pending) or stops the system (stop pending, system active, no steps
outstanding) exactly when `e` is at least 2000; below its threshold each of these
ticks changes nothing. -/
theorem elapsed_guards_wrap_safe (s : State) (inp : TickInput) (e : Nat)
    (he : e < 2 ^ 32) :
    (∀ start : Nat, ulongSub ((start + e) % 2 ^ 32) start = e) ∧
    (s.currentSortingStep = SortingStep.STEP_STEPPER_MOVING →
      0 < s.stepsRemainingInMove → inp.micros = (s.lastStepTime + e) % 2 ^ 32 →
      ∃ t, runContinuousSorting inp s = some t ∧
        (t.stepPinWrites = s.stepPinWrites + 1 ↔ 800 ≤ e) ∧
        (t.pinStep ≠ s.pinStep ↔ 800 ≤ e) ∧
        (e < 800 → t = s)) ∧
    (s.currentSortingStep = SortingStep.STEP_LOAD_EGG_UP →
      inp.millis = (s.stepStartTime + e) % 2 ^ 32 →
      ∃ t, runContinuousSorting inp s = some t ∧
        (t.currentSortingStep = SortingStep.STEP_MOVE_TO_SCALE_INIT ↔ 1500 ≤ e) ∧
        (e < 1500 → t = s)) ∧
    (s.currentSortingStep = SortingStep.STEP_WEIGH_WAIT →
      inp.millis = (s.stepStartTime + e) % 2 ^ 32 →
      ∃ t, runContinuousSorting inp s = some t ∧
        (t.currentSortingStep = SortingStep.STEP_WEIGH_READ ↔ 500 ≤ e) ∧
        (e < 500 → t = s)) ∧
    (s.currentSortingStep = SortingStep.STEP_WAIT_FOR_QUALITY →
      s.stopRequested = true → inp.millis = (s.stepStartTime + e) % 2 ^ 32 →
      ∃ t, runContinuousSorting inp s = some t ∧
        (t.currentSortingStep = SortingStep.STEP_SORT_ACTUATE ↔ 3000 ≤ e) ∧
        (e < 3000 → t = s)) ∧
    (s.currentSortingStep = SortingStep.STEP_EGG_DROP_WAIT →
      inp.millis = (s.stepStartTime + e) % 2 ^ 32 →
      ∃ t, runContinuousSorting inp s = some t ∧
        (s.stopRequested = false →
          (t.currentSortingStep = SortingStep.STEP_LOAD_EGG_DOWN ↔ 2000 ≤ e)) ∧
        (s.stopRequested = true → s.systemActive = true → s.stepsRemainingInMove = 0 →
          (t.currentSortingStep = SortingStep.STEP_IDLE ↔ 2000 ≤ e)) ∧
        (e < 2000 → t = s)) := by
  have hwrap : ∀ start : Nat, ulongSub ((start + e) % 2 ^ 32) start = e := by
    intro start
    have h := ulongSub_wrap start e he
    simp only [ULONG_MOD] at h
    exact h
  obtain ⟨sa, sr, pm, hc, rg, lt, st, w, q, wi, ph, sst, tw, ld, mg, ps, pw, pd, pe⟩ := s
  refine ⟨hwrap, ?_, ?_, ?_, ?_, ?_⟩
  · intro hph hpos hm
    simp only at hph hpos hm
    subst hph
    simp only [runContinuousSorting, stepperMoving, gt_iff_lt, hpos, if_true,
      STEP_PULSE_DELAY_US, ge_iff_le, hm, hwrap]
    by_cases hg : 800 ≤ e
    · cases ps <;> simp [hg]
    · simp [hg]
  · intro hph hm
    simp only at hph hm
    subst hph
    simp only [runContinuousSorting, TIME_SERVO_ACTUATE, ge_iff_le, hm, hwrap]
    by_cases hg : 1500 ≤ e
    · simp [hg]
    · simp [hg]
  · intro hph hm
    simp only at hph hm
    subst hph
    simp only [runContinuousSorting, TIME_SETTLE_VIBRATION, ge_iff_le, hm, hwrap]
    by_cases hg : 500 ≤ e
    · simp [hg]
    · simp [hg]
  · intro hph hs hm
    simp only at hph hs hm
    subst hph hs
    simp only [runContinuousSorting, QUALITY_WAIT_TIMEOUT_ON_STOP, ge_iff_le, hm, hwrap]
    by_cases hg : 3000 ≤ e
    · simp [hg]
    · simp [hg]
  · intro hph hm
    simp only at hph hm
    subst hph
    simp only [runContinuousSorting, TIME_SORT_ACTUATE, ge_iff_le, hm, hwrap, stopSystem,
      homeServo]
    by_cases hg : 2000 ≤ e
    · cases sr <;> cases sa <;> simp [hg]
      all_goals (try split_ifs)
      all_goals simp_all
      all_goals omega
    · simp [hg]

/-- Witness of C27 across a wrap, for each of the five guards.  The last toggle was
100 microseconds before the wrap of `micros()`: at counter value 700, 800 microseconds
later, a tick toggles the step line, and one microsecond earlier it does not.  The
phase started 100 ms before the wrap of `millis()`: LOAD_UP is left at counter value
1400, SETTLE at 400, WAIT_QUALITY with a stop pending at 2900, and DROP_WAIT with a
stop pending at 1900. -/
theorem elapsed_guards_wrap_safe_witness :
    exampleMovingAtWrap.currentSortingStep = SortingStep.STEP_STEPPER_MOVING ∧
    0 < exampleMovingAtWrap.stepsRemainingInMove ∧
    (700 : Nat) = (exampleMovingAtWrap.lastStepTime + 800) % 2 ^ 32 ∧
    700 < exampleMovingAtWrap.lastStepTime ∧
    (∃ t, runContinuousSorting (tickAt 700) exampleMovingAtWrap = some t ∧
      t.stepPinWrites = exampleMovingAtWrap.stepPinWrites + 1 ∧
      t.pinStep ≠ exampleMovingAtWrap.pinStep) ∧
    runContinuousSorting (tickAt 699) exampleMovingAtWrap = some exampleMovingAtWrap ∧
    exampleLoadUpAtWrap.currentSortingStep = SortingStep.STEP_LOAD_EGG_UP ∧
    (1400 : Nat) = (exampleLoadUpAtWrap.stepStartTime + 1500) % 2 ^ 32 ∧
    (∃ t, runContinuousSorting { exampleTick with millis := 1400 } exampleLoadUpAtWrap
        = some t ∧
      t.currentSortingStep = SortingStep.STEP_MOVE_TO_SCALE_INIT) ∧
    (∃ t, runContinuousSorting { exampleTick with millis := 400 }
        { exampleLoadUpAtWrap with currentSortingStep := SortingStep.STEP_WEIGH_WAIT }
        = some t ∧
      t.currentSortingStep = SortingStep.STEP_WEIGH_READ) ∧
    (∃ t, runContinuousSorting { exampleTick with millis := 2900 }
        { exampleLoadUpAtWrap with
          stopRequested := true
          currentSortingStep := SortingStep.STEP_WAIT_FOR_QUALITY } = some t ∧
      t.currentSortingStep = SortingStep.STEP_SORT_ACTUATE) ∧
    (∃ t, runContinuousSorting { exampleTick with millis := 1900 }
        { exampleLoadUpAtWrap with
          stopRequested := true
          currentSortingStep := SortingStep.STEP_EGG_DROP_WAIT } = some t ∧
      t.currentSortingStep = SortingStep.STEP_IDLE) := by
  obtain ⟨t, ht, hw, hp, _⟩ :=
    (elapsed_guards_wrap_safe exampleMovingAtWrap (tickAt 700) 800 (by decide)).2.1
      rfl (by decide) (by decide)
  obtain ⟨u, hu, _, _, hkeep⟩ :=
    (elapsed_guards_wrap_safe exampleMovingAtWrap (tickAt 699) 799 (by decide)).2.1
      rfl (by decide) (by decide)
  obtain ⟨v, hv, hleave, _⟩ :=
    (elapsed_guards_wrap_safe exampleLoadUpAtWrap { exampleTick with millis := 1400 } 1500
      (by decide)).2.2.1 rfl (by decide)
  obtain ⟨v2, hv2, hleave2, _⟩ :=
    (elapsed_guards_wrap_safe
      { exampleLoadUpAtWrap with currentSortingStep := SortingStep.STEP_WEIGH_WAIT }
      { exampleTick with millis := 400 } 500 (by decide)).2.2.2.1 rfl (by decide)
  obtain ⟨v3, hv3, hleave3, _⟩ :=
    (elapsed_guards_wrap_safe
      { exampleLoadUpAtWrap with
        stopRequested := true
        currentSortingStep := SortingStep.STEP_WAIT_FOR_QUALITY }
      { exampleTick with millis := 2900 } 3000 (by decide)).2.2.2.2.1 rfl rfl (by decide)
  obtain ⟨v4, hv4, _, hleave4, _⟩ :=
    (elapsed_guards_wrap_safe
      { exampleLoadUpAtWrap with
        stopRequested := true
        currentSortingStep := SortingStep.STEP_EGG_DROP_WAIT }
      { exampleTick with millis := 1900 } 2000 (by decide)).2.2.2.2.2 rfl (by decide)
  refine ⟨rfl, by decide, by decide, by decide, ⟨t, ht, hw.2 (by decide), hp.2 (by decide)⟩,
    ?_, rfl, by decide, ⟨v, hv, hleave.2 (by decide)⟩, ⟨v2, hv2, hleave2.2 (by decide)⟩,
    ⟨v3, hv3, hleave3.2 (by decide)⟩, ⟨v4, hv4, (hleave4 rfl rfl rfl).2 (by decide)⟩⟩
  rw [hu, hkeep (by decide)]

end Megg
